import Mathlib

/-!
# Verification of the Address Resolution Engine (`src/utils/geocode.py`)

A shallow embedding of the geocoding subsystem of the
`data-driven-recreation-insights` repository, together with theorems
settling the specification claims about it.

Modelling conventions:
* Python strings are modelled as `List Char` (`Str`); Python string
  operations (`strip`, `upper`, `split(", ")`, `", ".join`, `endswith`)
  are given explicit character-level definitions that mirror their
  Python semantics.
* JSON scalar values stored in the cache are modelled by `PyVal`
  (a string or a number); Python truthiness of such a value is
  `PyVal.truthy`.  `float()` conversion of a coordinate is modelled as
  the identity on the carried value (numeric parsing is irrelevant to
  every claim; equality of carried values implies equality of the
  converted floats).
* The persistent cache file, the legacy cache file, the module-global
  `_LAST_REQUEST_TIME` and a fake wall clock (advanced only by
  `time.sleep`, requests themselves are instantaneous) form the state
  `GeoState`.  The external Nominatim provider is an oracle
  `Fetcher : Str → Str → Option Str × Option Str` giving the `lat`/`lon`
  fields of the first result (`(none, none)` = no result).
-/

namespace Geocode

/-- Python strings, modelled as lists of characters. -/
abbrev Str := List Char

/-- The characters of a string literal (to write Python string constants). -/
def str (s : String) : Str := s.data

/-- Python `s.strip()`: drop leading and trailing whitespace. -/
def pyStrip (s : Str) : Str :=
  ((s.dropWhile Char.isWhitespace).reverse.dropWhile Char.isWhitespace).reverse

/-- Python `s.upper()` (character-wise). -/
def pyUpper (s : Str) : Str := s.map Char.toUpper

/-- Lookup in an association list keyed by strings (Python dict `.get`). -/
def lookupK {α : Type} : List (Str × α) → Str → Option α
  | [], _ => none
  | (k, v) :: rest, key => if k = key then some v else lookupK rest key

/-- `COUNTRY_NAMES` from `src/utils/geocode.py`. -/
def COUNTRY_NAMES : List (Str × Str) :=
  [ (str "HR", str "Croatia"),
    (str "BA", str "Bosnia and Herzegovina"),
    (str "ME", str "Montenegro"),
    (str "IT", str "Italy"),
    (str "LT", str "Lithuania"),
    (str "KZ", str "Kazakhstan"),
    (str "PL", str "Poland"),
    (str "SE", str "Sweden"),
    (str "MK", str "North Macedonia"),
    (str "AE", str "United Arab Emirates"),
    (str "SI", str "Slovenia"),
    (str "RS", str "Serbia"),
    (str "HU", str "Hungary"),
    (str "AT", str "Austria"),
    (str "DE", str "Germany"),
    (str "SK", str "Slovakia"),
    (str "CZ", str "Czech Republic") ]

/-- `build_query` from `src/utils/geocode.py`:
`None` country defaults to `""`; fails unless the uppercased code has
length 2; fails if the address is empty (or whitespace) after stripping;
appends `", <country-name>"` unless already a suffix. -/
def build_query (address : Option Str) (country_code : Option Str) : Option Str :=
  let cc := pyUpper (country_code.getD [])
  if cc.isEmpty || cc.length != 2 then none
  else
    let country_name := (lookupK COUNTRY_NAMES cc).getD cc
    let q : Str := match address with
      | some a => if a.isEmpty then [] else pyStrip a
      | none => []
    if q.isEmpty then none
    else if country_name.isSuffixOf q then some q
    else some (q ++ str ", " ++ country_name)

/-- Python `s.split(", ")`: left-to-right, non-overlapping, keeps empty
pieces (the accumulator holds the current piece reversed). -/
def splitCS : Str → Str → List Str
  | ',' :: ' ' :: rest, acc => acc.reverse :: splitCS rest []
  | c :: rest, acc => splitCS rest (c :: acc)
  | [], acc => [acc.reverse]

/-- Python `", ".join(l)`. -/
def joinCS : List Str → Str
  | [] => []
  | [x] => x
  | x :: xs => x ++ str ", " ++ joinCS xs

/-- ASCII letter (the regex class `[a-zA-Z]`). -/
def isAsciiAlpha (c : Char) : Bool :=
  (97 ≤ c.toNat && c.toNat ≤ 122) || (65 ≤ c.toNat && c.toNat ≤ 90)

/-- `re.sub(r"\s*\d+[a-zA-Z]?\s*$", "", address_part).strip()` from
`_fallback_queries`: strip one trailing street-number token (digits with
an optional single trailing ASCII letter) plus surrounding whitespace;
if nothing matches, the input is merely stripped.  Implemented by
scanning the reversed character list: whitespace, then an optional
letter, then one or more digits, then whitespace. -/
def stripStreetNumber (s : Str) : Str :=
  let rev := s.reverse
  let r1 := rev.dropWhile Char.isWhitespace
  let tryDigits : Str → Option Str := fun l =>
    let ds := l.takeWhile Char.isDigit
    if ds.isEmpty then none
    else some ((l.drop ds.length).dropWhile Char.isWhitespace)
  let matched : Option Str :=
    match r1 with
    | c :: rest => if isAsciiAlpha c then (tryDigits rest).orElse (fun _ => tryDigits r1)
                   else tryDigits r1
    | [] => none
  match matched with
  | some rest => pyStrip rest.reverse
  | none => pyStrip s

/-- `_fallback_queries` from `src/utils/geocode.py`: simpler queries to
try when the full address returns null.  Candidates, in order: first two
parts + country (if ≥ 4 parts), last three parts (if ≥ 3), last two
parts (if ≥ 2), first part with a trailing street number stripped,
rejoined with part 2 and the country (if ≥ 3); then empty candidates and
candidates equal to the original key are filtered out. -/
def fallback_queries (cache_key : Str) : List Str :=
  if cache_key.isEmpty || (splitCS cache_key []).length < 2 then []
  else
    let parts := (splitCS cache_key []).map pyStrip
    if parts.length < 2 then []
    else
      let country := parts.getLastD []
      let fb1 : List Str :=
        if parts.length ≥ 4 then [joinCS [parts.getD 0 [], parts.getD 1 [], country]] else []
      let fb2 : List Str :=
        if parts.length ≥ 3 then [joinCS (parts.drop (parts.length - 3))] else []
      let fb3 : List Str :=
        if parts.length ≥ 2 then [joinCS (parts.drop (parts.length - 2))] else []
      let fb4 : List Str :=
        if parts.length ≥ 3 then
          let address_part := parts.getD 0 []
          let street_no_strip := stripStreetNumber address_part
          if !street_no_strip.isEmpty && street_no_strip ≠ address_part then
            [street_no_strip ++ str ", " ++ parts.getD 1 [] ++ str ", " ++ country]
          else []
        else []
      (fb1 ++ fb2 ++ fb3 ++ fb4).filter (fun q => !q.isEmpty && q ≠ cache_key)

/-- `CAMPUS_SPLIT_CANONICAL` from `src/utils/geocode.py`. -/
def CAMPUS_SPLIT_CANONICAL : Str := str "Cvite Fiskovića 3, Split, Croatia"

/-- `CACHE_QUERY_CORRECTIONS` from `src/utils/geocode.py`. -/
def CACHE_QUERY_CORRECTIONS : List (Str × Str) :=
  [ (str "Velika dvorana, Croatia", CAMPUS_SPLIT_CANONICAL),
    (str "Velika dvorana - studentski dom KAMPUS, Croatia", CAMPUS_SPLIT_CANONICAL),
    (str "Velika dvorana - KAMPUS Studentski dom dr. Franje Tuđmana 3, Croatia", CAMPUS_SPLIT_CANONICAL),
    (str "Studentski dom dr. Franje Tuđmana 3, Croatia", CAMPUS_SPLIT_CANONICAL),
    (str "Studentski dom Kampus, Split, Croatia", CAMPUS_SPLIT_CANONICAL),
    (str "Multifunkcionalna dvorana Kampus (ispod tribine). Studentski dom dr. Franjo Tuđman Cvite Fiskovića 3, Croatia", CAMPUS_SPLIT_CANONICAL),
    (str "Multifunkcionalna dvorana Kampus (ispod tribine). Studentski dom dr. Franjo Tuđman Cvite Fiskovića 3, Split, Croatia", CAMPUS_SPLIT_CANONICAL),
    (str "Kampus . Studentski dom dr. Franjo Tuđman Cvite Fiskovića 3, Croatia", CAMPUS_SPLIT_CANONICAL),
    (str "Kampus . Studentski dom dr. Franjo Tuđman Cvite Fiskovića 3, Split, Croatia", CAMPUS_SPLIT_CANONICAL),
    (str "Multifunkcionalna dvorana Kampus (ispod tribine). Studentski dom Kampus dr. Franje Tuđmana Cvite Fiskovića 3, Croatia", CAMPUS_SPLIT_CANONICAL),
    (str "Multifunkcionalna dvorana Kampus (ispod tribine). Studentski dom Kampus dr. Franje Tuđmana Cvite Fiskovića 3, Split, Croatia", CAMPUS_SPLIT_CANONICAL),
    (str "Kampus . Studentski dom Kampus dr. Franje Tuđmana Cvite Fiskovića 3, Croatia", CAMPUS_SPLIT_CANONICAL),
    (str "Kampus . Studentski dom Kampus dr. Franje Tuđmana Cvite Fiskovića 3, Split, Croatia", CAMPUS_SPLIT_CANONICAL),
    (str "SPINUT FUTSAL TEREN, Split, Croatia", str "SPINUT FUTSAL TEREN, Croatia"),
    (str "Spinut futsal teren, Split, Croatia", str "Spinut futsal teren, Croatia") ]

/-- `KEYS_TO_PURGE_FROM_CACHE` from `src/utils/geocode.py`
(`frozenset(CACHE_QUERY_CORRECTIONS)` = the keys of the table). -/
def KEYS_TO_PURGE_FROM_CACHE : List Str := CACHE_QUERY_CORRECTIONS.map Prod.fst

/-- A scalar JSON value held in a cache entry: the provider returns
`lat`/`lon` as strings, `geocode_event_location` writes numbers. -/
inductive PyVal where
  | pstr (s : Str)
  | pnum (q : ℚ)
deriving DecidableEq

/-- Python truthiness of a `PyVal`. -/
def PyVal.truthy : PyVal → Bool
  | .pstr s => !s.isEmpty
  | .pnum q => q != 0

/-- A non-null cache value `{"lat": ..., "lng": ...}`; the fields are
optional because `val.get("lat")` may find the key absent. -/
structure Entry where
  lat : Option PyVal
  lng : Option PyVal
deriving DecidableEq

/-- Python truthiness of `val.get(...)` (None is falsy). -/
def optTruthy : Option PyVal → Bool
  | none => false
  | some v => v.truthy

/-- Both coordinates present and truthy (the `if lat and lng` test). -/
def Entry.truthy (e : Entry) : Bool := optTruthy e.lat && optTruthy e.lng

/-- A cache value: `none` is the JSON null marker (`Negative`),
`some e` is a `Resolved`-shaped object. -/
abbrev CacheVal := Option Entry

/-- The cache mapping, as an association list (a JSON object). -/
abbrev Cache := List (Str × CacheVal)

/-- Remove every binding of a key from an association list. -/
def delKey {α : Type} : List (Str × α) → Str → List (Str × α)
  | [], _ => []
  | p :: rest, k => if p.1 = k then delKey rest k else p :: delKey rest k

/-- Python `cache[k]` presence/lookup (`k in cache` is `.isSome`). -/
def cacheGet (c : Cache) (k : Str) : Option CacheVal := lookupK c k

/-- Python `cache[k] = v` (insert or overwrite the binding of `k`). -/
def cacheSet (c : Cache) (k : Str) (v : CacheVal) : Cache := (k, v) :: delKey c k

/-- Python `del cache[k]`. -/
def cacheDel (c : Cache) (k : Str) : Cache := delKey c k

/-- The durable cache file: absent, unreadable JSON, or a mapping. -/
inductive FileContent where
  | missing
  | corrupt
  | valid (d : Cache)
deriving DecidableEq

/-- The file system seen by the engine: the legacy
`residence_lat_lng.json` (modelled as a readable mapping when present)
and `geocode_cache.json`. -/
structure FS where
  legacy : Option Cache
  cacheFile : FileContent
deriving DecidableEq

/-- `_migrate_legacy_cache`: copy the legacy store forward iff the
current store does not exist. -/
def migrate_legacy_cache (fs : FS) : FS :=
  match fs.legacy, fs.cacheFile with
  | some d, .missing => { fs with cacheFile := .valid d }
  | _, _ => fs

/-- The purge loop of `_load_cache`: delete every key of
`KEYS_TO_PURGE_FROM_CACHE` from the mapping. -/
def purgeAll (d : Cache) : Cache := KEYS_TO_PURGE_FROM_CACHE.foldl cacheDel d

/-- Whether the purge loop deleted anything (the `purged` flag). -/
def anyPurgeKey (d : Cache) : Bool :=
  KEYS_TO_PURGE_FROM_CACHE.any (fun k => (cacheGet d k).isSome)

/-- `_load_cache` acting on the file system: migrate the legacy store,
read the file (missing file or a `json.JSONDecodeError` yield `{}`),
purge corrected keys, and persist the cleaned mapping iff a key was
actually deleted. -/
def loadCacheFS (fs : FS) : Cache × FS :=
  match (migrate_legacy_cache fs).cacheFile with
  | .missing => ([], migrate_legacy_cache fs)
  | .corrupt => ([], migrate_legacy_cache fs)
  | .valid d =>
      if anyPurgeKey d then
        (purgeAll d,
         { legacy := (migrate_legacy_cache fs).legacy, cacheFile := .valid (purgeAll d) })
      else (d, migrate_legacy_cache fs)

/-- `RATE_LIMIT_SEC = 1.1` from `src/utils/geocode.py`. -/
def RATE_LIMIT_SEC : ℚ := 11 / 10

/-- The engine's mutable world: the file system, a fake wall clock
`now`, the module global `_LAST_REQUEST_TIME`, and a log of issued
provider requests (query and request timestamp, newest first). -/
structure GeoState where
  fs : FS
  now : ℚ
  lastReq : ℚ
  fetchLog : List (Str × ℚ)
deriving DecidableEq

/-- `_load_cache` as a state action. -/
def load_cache (s : GeoState) : Cache × GeoState :=
  ((loadCacheFS s.fs).1, { s with fs := (loadCacheFS s.fs).2 })

/-- `_save_cache`: write the mapping to the cache file. -/
def save_cache (c : Cache) (s : GeoState) : GeoState :=
  { s with fs := { legacy := s.fs.legacy, cacheFile := .valid c } }

/-- The external provider oracle: the `lat`/`lon` fields of the first
result of a search, `(none, none)` when the provider returns nothing. -/
abbrev Fetcher := Str → Str → Option Str × Option Str

/-- The moment the next request is issued: if less than
`RATE_LIMIT_SEC` elapsed since the previous request, sleep exactly the
remaining time first (lines 156–159 of the source). -/
def fetchTime (s : GeoState) : ℚ :=
  if s.now - s.lastReq < RATE_LIMIT_SEC
  then s.now + (RATE_LIMIT_SEC - (s.now - s.lastReq))
  else s.now

/-- `_fetch_nominatim`: sleep out the remainder of `RATE_LIMIT_SEC`
since the previous request, stamp `_LAST_REQUEST_TIME`, issue the
request, and return `(lat, lon)` only when both are truthy.  (The
`for _ in range(3)` loop in the source always returns during its first
iteration, so a single attempt is modelled.) -/
def fetch_nominatim (f : Fetcher) (query cc : Str) (s : GeoState) :
    (Option Str × Option Str) × GeoState :=
  let t := fetchTime s
  let s2 : GeoState := { s with now := t, lastReq := t, fetchLog := (query, t) :: s.fetchLog }
  let r : Option Str × Option Str :=
    match f query cc with
    | (some lat, some lon) =>
        if !lat.isEmpty && !lon.isEmpty then (some lat, some lon) else (none, none)
    | _ => (none, none)
  (r, s2)

/-- The fallback loop of the `Negative`-cache-hit branch of
`geocode_address` (lines 194–200): on the first fetch success, write
`Resolved` under the original query into the mapping loaded at call
start and persist it. -/
def tryFallbacksNeg (f : Fetcher) (cc query : Str) (cache : Cache) :
    List Str → GeoState → Option (PyVal × PyVal) × GeoState
  | [], s => (none, s)
  | fb :: rest, s =>
      let r := fetch_nominatim f fb cc s
      match r.1 with
      | (some lat, some lng) =>
          if !lat.isEmpty && !lng.isEmpty then
            let c2 := cacheSet cache query (some ⟨some (.pstr lat), some (.pstr lng)⟩)
            (some (.pstr lat, .pstr lng), save_cache c2 r.2)
          else tryFallbacksNeg f cc query cache rest r.2
      | _ => tryFallbacksNeg f cc query cache rest r.2

/-- The fallback loop of the cache-miss branch of `geocode_address`
(lines 213–220): on the first fetch success, re-load the cache, write
`Resolved` under the original query, and persist. -/
def tryFallbacksMiss (f : Fetcher) (cc query : Str) :
    List Str → GeoState → Option (PyVal × PyVal) × GeoState
  | [], s => (none, s)
  | fb :: rest, s =>
      let r := fetch_nominatim f fb cc s
      match r.1 with
      | (some lat, some lng) =>
          if !lat.isEmpty && !lng.isEmpty then
            let cs := load_cache r.2
            let c2 := cacheSet cs.1 query (some ⟨some (.pstr lat), some (.pstr lng)⟩)
            (some (.pstr lat, .pstr lng), save_cache c2 cs.2)
          else tryFallbacksMiss f cc query rest r.2
      | _ => tryFallbacksMiss f cc query rest r.2

/-- Line 182 of `geocode_address`:
`query = CACHE_QUERY_CORRECTIONS.get(query, query)`. -/
def corrected (query0 : Str) : Str :=
  (lookupK CACHE_QUERY_CORRECTIONS query0).getD query0

/-- Lines 188–191 of `geocode_address`: the coordinate extracted from a
non-null cache value (`None, None` unless both fields are truthy). -/
def cacheHitResult (e : Entry) : Option (PyVal × PyVal) :=
  match e.lat, e.lng with
  | some lat, some lng => if lat.truthy && lng.truthy then some (lat, lng) else none
  | _, _ => none

/-- Lines 213–225 of `geocode_address`: after the primary fetch failed
on a cache miss, walk the fallbacks (when enabled); if nothing
succeeded, re-load the cache, record `Negative` under the query and
persist. -/
def geocodeMissFail (f : Fetcher) (cc query : Str) (fallbacks : Bool)
    (s : GeoState) : Option (PyVal × PyVal) × GeoState :=
  let r :=
    match fallbacks with
    | true => tryFallbacksMiss f cc query (fallback_queries query) s
    | false => (none, s)
  match r.1 with
  | some v => (some v, r.2)
  | none =>
      let cs := load_cache r.2
      (none, save_cache (cacheSet cs.1 query none) cs.2)

/-- `geocode_address` from `src/utils/geocode.py`: normalize, apply the
correction table, consult the cache (`Resolved` → return its
coordinate if truthy else none; `Negative` → retry fallbacks when
allowed and not `skip_api`), otherwise fetch the canonical query and
then the fallbacks, writing the outcome (positive or negative) back to
the cache. -/
def geocode_address (f : Fetcher) (address country_code : Option Str)
    (skip_api fallbacks : Bool) (s : GeoState) :
    Option (PyVal × PyVal) × GeoState :=
  match build_query address country_code with
  | none => (none, s)
  | some query0 =>
    let query := corrected query0
    let cc := pyUpper (country_code.getD [])
    let cs := load_cache s
    match cacheGet cs.1 query with
    | some (some e) => (cacheHitResult e, cs.2)
    | some none =>
        match skip_api, fallbacks with
        | true, _ => (none, cs.2)
        | false, true =>
            tryFallbacksNeg f cc query cs.1 (fallback_queries query) cs.2
        | false, false => (none, cs.2)
    | none =>
        match skip_api with
        | true => (none, cs.2)
        | false =>
          let r := fetch_nominatim f query cc cs.2
          match r.1 with
          | (some lat, some lng) =>
              if !lat.isEmpty && !lng.isEmpty then
                let cs2 := load_cache r.2
                let c2 := cacheSet cs2.1 query (some ⟨some (.pstr lat), some (.pstr lng)⟩)
                (some (.pstr lat, .pstr lng), save_cache c2 cs2.2)
              else geocodeMissFail f cc query fallbacks r.2
          | _ => geocodeMissFail f cc query fallbacks r.2

/-- Python `" ".join(l)`. -/
def joinSpace : List Str → Str
  | [] => []
  | [x] => x
  | x :: xs => x ++ ' ' :: joinSpace xs

/-- `normalize_location`: collapse newlines and whitespace runs. -/
def normalize_location (location : Str) : Str :=
  if (pyStrip location).isEmpty then []
  else
    let pieces := ((location.map (fun c => if c = '\n' then ' ' else c)).splitOnP
      Char.isWhitespace).filter (fun p => !p.isEmpty)
    joinSpace pieces

/-- The write-back of `geocode_event_location` (lines 385–388): when a
venue fallback resolved, re-load the cache and record the coordinate
under the *original* key (`if orig_key:` guards falsy keys). -/
def venueWrite (orig_key : Option Str) (v : PyVal × PyVal) (s : GeoState) : GeoState :=
  match orig_key with
  | some k =>
      if k.isEmpty then s
      else
        let cs := load_cache s
        save_cache (cacheSet cs.1 k (some ⟨some v.1, some v.2⟩)) cs.2
  | none => s

/-- The venue-fallback loop of `geocode_event_location` (lines
379–389): skip candidates whose key is falsy or equals the original
key; resolve each remaining candidate with fallbacks disabled; on the
first success write back under the original key and return. -/
def venueLoop (f : Fetcher) (country_code : Str) (orig_key : Option Str) :
    List Str → GeoState → Option (PyVal × PyVal) × GeoState
  | [], s => (none, s)
  | fb :: rest, s =>
      match build_query (some fb) (some country_code) with
      | none => venueLoop f country_code orig_key rest s
      | some fk =>
          if some fk = orig_key then venueLoop f country_code orig_key rest s
          else
            let r := geocode_address f (some fb) (some country_code) false false s
            match r.1 with
            | some v => (some v, venueWrite orig_key v r.2)
            | none => venueLoop f country_code orig_key rest r.2

/-- Line 367 of the source:
`addr = normalize_location(location) if location else ""`. -/
def normalizeOptLoc (location : Option Str) : Str :=
  match location with
  | some l => if l.isEmpty then [] else normalize_location l
  | none => []

/-- `geocode_event_location` from `src/utils/geocode.py`.  The
event-specific candidate generator `event_location_fallbacks` is passed
as the parameter `evFbs`: its output is a pure function of the
normalized location and country code, built by regex-based heuristics
that no claim depends on, so the theorems below hold for every
generator. -/
def geocode_event_location (f : Fetcher) (evFbs : Str → Str → List Str)
    (location : Option Str) (country_code : Str) (skip_api : Bool)
    (s : GeoState) : Option (PyVal × PyVal) × GeoState :=
  let addr := normalizeOptLoc location
  if addr.isEmpty then (none, s)
  else
    let r := geocode_address f (some addr) (some country_code) skip_api true s
    match r.1 with
    | some v => (some v, r.2)
    | none =>
        match skip_api with
        | true => (none, r.2)
        | false =>
            let orig_key := build_query (some addr) (some country_code)
            venueLoop f country_code orig_key (evFbs addr country_code) r.2

/-- One engine operation: a residence-style resolution
(`geocode_address`) or a venue-style resolution
(`geocode_event_location`). -/
inductive Op where
  | resolve (f : Fetcher) (address country_code : Option Str)
      (skip_api fallbacks : Bool)
  | venueResolve (f : Fetcher) (evFbs : Str → Str → List Str)
      (location : Option Str) (country_code : Str) (skip_api : Bool)

/-- Execute one operation for its state effect. -/
def runOp (s : GeoState) : Op → GeoState
  | .resolve f a c sk fb => (geocode_address f a c sk fb s).2
  | .venueResolve f g l c sk => (geocode_event_location f g l c sk s).2

/-- Execute a sequence of operations. -/
def runOps (s : GeoState) (ops : List Op) : GeoState := ops.foldl runOp s

/-- The value the durable cache file associates to a key (`none` when
the file is missing or unreadable). -/
def fsLookup (fs : FS) (k : Str) : Option CacheVal :=
  match fs.cacheFile with
  | .valid d => cacheGet d k
  | _ => none

/-- `fsLookup` through a `GeoState`. -/
def fileLookup (s : GeoState) (k : Str) : Option CacheVal := fsLookup s.fs k

/-- A cache slot that the engine is allowed to (over)write: absent,
`Negative`, or a `Resolved`-shaped entry whose coordinates are not both
truthy. -/
def weakSlot : Option CacheVal → Bool
  | none => true
  | some none => true
  | some (some e) => !e.truthy

/-- The outcome `geocode_address` extracts from one provider response:
`some (lat, lon)` exactly when both fields are present and truthy. -/
def fetchSuccess (f : Fetcher) (cc fb : Str) : Option (Str × Str) :=
  match f fb cc with
  | (some lat, some lon) =>
      if !lat.isEmpty && !lon.isEmpty then some (lat, lon) else none
  | _ => none

/-- The first fallback candidate (in order) whose fetch succeeds. -/
def firstSuccess (f : Fetcher) (cc : Str) : List Str → Option (Str × Str)
  | [] => none
  | fb :: rest =>
      match fetchSuccess f cc fb with
      | some p => some p
      | none => firstSuccess f cc rest

/-- Bookkeeping for a computation step from `s` to `s'` that issued `n`
provider requests: the log grows by `n`, the last-request stamp
advances by at least `n` rate-limit intervals, time never goes
backwards; with no request the clock is untouched, and after at least
one request the clock equals the last request stamp, which is at least
`n - 1` intervals after the starting time. -/
structure Evolves (s s' : GeoState) (n : ℕ) : Prop where
  log_len : s'.fetchLog.length = s.fetchLog.length + n
  last_ge : s.lastReq + n * RATE_LIMIT_SEC ≤ s'.lastReq
  now_ge : s.now ≤ s'.now
  zero_eq : n = 0 → s'.now = s.now ∧ s'.lastReq = s.lastReq
  pos_eq : 1 ≤ n → s'.now = s'.lastReq ∧
    s.now + n * RATE_LIMIT_SEC ≤ s'.now + RATE_LIMIT_SEC

/-- Weak preservation: every durable slot outside the purge set that a
step changed previously held no entry, a `Negative`, or an entry whose
coordinates are not both truthy. -/
def Preserves (s s' : GeoState) : Prop :=
  ∀ k, k ∉ KEYS_TO_PURGE_FROM_CACHE →
    fileLookup s' k ≠ fileLookup s k → weakSlot (fileLookup s k) = true

/-- Strong preservation: every changed slot outside the purge set was
previously absent. -/
def PreservesS (s s' : GeoState) : Prop :=
  ∀ k, k ∉ KEYS_TO_PURGE_FROM_CACHE →
    fileLookup s' k ≠ fileLookup s k → fileLookup s k = none

/-- Whitespace tokenizer (Python `s.split()` on a character list); the
accumulator holds the current token reversed. -/
def splitWsAux : Str → Str → List Str
  | [], acc => [acc.reverse]
  | ch :: rest, acc =>
      if ch.isWhitespace then acc.reverse :: splitWsAux rest []
      else splitWsAux rest (ch :: acc)

/-- The whitespace-separated tokens of a string. -/
def tokensOf (s : Str) : List Str := (splitWsAux s []).filter (fun t => !t.isEmpty)

/-- A string consisting of exactly one token made of digits only
(the spec's "single-token purely numeric candidate"). -/
def singleTokenNumeric (s : Str) : Bool :=
  match tokensOf s with
  | [t] => t.all Char.isDigit
  | _ => false

/-! ## Association-list and purge lemmas -/

theorem lookupK_delKey_self {α : Type} (c : List (Str × α)) (k : Str) :
    lookupK (delKey c k) k = none := by
  induction c with
  | nil => rfl
  | cons p rest ih =>
      by_cases h : p.1 = k
      · simpa [delKey, h] using ih
      · simp [delKey, h, lookupK, ih]

theorem lookupK_delKey_ne {α : Type} (c : List (Str × α)) (k k' : Str)
    (h : k' ≠ k) :
    lookupK (delKey c k) k' = lookupK c k' := by
  induction c with
  | nil => rfl
  | cons p rest ih =>
      by_cases hp : p.1 = k
      · have hkk : ¬ (k = k') := fun he => h he.symm
        simp [delKey, hp, lookupK, hkk, ih]
      · simp only [delKey, if_neg hp, lookupK]
        by_cases hp' : p.1 = k'
        · simp [hp']
        · simp [hp', ih]

theorem cacheGet_set_self (c : Cache) (k : Str) (v : CacheVal) :
    cacheGet (cacheSet c k v) k = some v := by
  simp [cacheSet, cacheGet, lookupK]

theorem cacheGet_set_ne (c : Cache) (k k' : Str) (v : CacheVal) (h : k' ≠ k) :
    cacheGet (cacheSet c k v) k' = cacheGet c k' := by
  have h2 : ¬ (k = k') := fun he => h he.symm
  simp only [cacheSet, cacheGet, lookupK, if_neg h2]
  exact lookupK_delKey_ne c k k' h

theorem cacheGet_del_self (c : Cache) (k : Str) :
    cacheGet (cacheDel c k) k = none :=
  lookupK_delKey_self c k

theorem cacheGet_del_ne (c : Cache) (k k' : Str) (h : k' ≠ k) :
    cacheGet (cacheDel c k) k' = cacheGet c k' :=
  lookupK_delKey_ne c k k' h

theorem cacheGet_foldlDel_of_none (ks : List Str) (d : Cache) (k : Str)
    (h : cacheGet d k = none) :
    cacheGet (ks.foldl cacheDel d) k = none := by
  induction ks generalizing d with
  | nil => exact h
  | cons a rest ih =>
      apply ih
      by_cases ha : k = a
      · subst ha; exact cacheGet_del_self d k
      · rw [cacheGet_del_ne d a k ha]; exact h

theorem cacheGet_foldlDel_of_mem (ks : List Str) (d : Cache) (k : Str)
    (h : k ∈ ks) :
    cacheGet (ks.foldl cacheDel d) k = none := by
  induction ks generalizing d with
  | nil => cases h
  | cons a rest ih =>
      rcases List.mem_cons.mp h with rfl | hmem
      · exact cacheGet_foldlDel_of_none rest (cacheDel d k) k (cacheGet_del_self d k)
      · exact ih (cacheDel d a) hmem

theorem cacheGet_foldlDel_not_mem (ks : List Str) (d : Cache) (k : Str)
    (h : k ∉ ks) :
    cacheGet (ks.foldl cacheDel d) k = cacheGet d k := by
  induction ks generalizing d with
  | nil => rfl
  | cons a rest ih =>
      have hka : k ≠ a := fun he => h (he ▸ List.mem_cons_self a rest)
      have hrest : k ∉ rest := fun hm => h (List.mem_cons_of_mem a hm)
      rw [List.foldl_cons, ih (cacheDel d a) hrest, cacheGet_del_ne d a k hka]

theorem cacheGet_purgeAll_of_mem (d : Cache) (k : Str)
    (h : k ∈ KEYS_TO_PURGE_FROM_CACHE) :
    cacheGet (purgeAll d) k = none :=
  cacheGet_foldlDel_of_mem _ d k h

theorem cacheGet_purgeAll_not_mem (d : Cache) (k : Str)
    (h : k ∉ KEYS_TO_PURGE_FROM_CACHE) :
    cacheGet (purgeAll d) k = cacheGet d k :=
  cacheGet_foldlDel_not_mem _ d k h

theorem anyPurgeKey_purgeAll (d : Cache) : anyPurgeKey (purgeAll d) = false := by
  unfold anyPurgeKey
  rw [List.any_eq_false]
  intro k hk
  rw [cacheGet_purgeAll_of_mem d k hk]
  simp

/-! ## Cache-load lemmas -/

theorem migrate_not_missing {fs : FS} (h : fs.cacheFile ≠ .missing) :
    migrate_legacy_cache fs = fs := by
  cases fs with
  | mk legacy file =>
      cases legacy <;> cases file <;> first | rfl | exact absurd rfl h

theorem migrate_legacy_none {fs : FS} (h : fs.legacy = none) :
    migrate_legacy_cache fs = fs := by
  cases fs with
  | mk legacy file =>
      cases legacy with
      | none => cases file <;> rfl
      | some d => cases h

theorem migrate_idem (fs : FS) :
    migrate_legacy_cache (migrate_legacy_cache fs) = migrate_legacy_cache fs := by
  cases fs with
  | mk legacy file => cases legacy <;> cases file <;> rfl

theorem fsLookup_missing {fs : FS} (h : fs.cacheFile = .missing) (k : Str) :
    fsLookup fs k = none := by
  unfold fsLookup
  rw [h]

theorem fsLookup_corrupt {fs : FS} (h : fs.cacheFile = .corrupt) (k : Str) :
    fsLookup fs k = none := by
  unfold fsLookup
  rw [h]

theorem fsLookup_valid {fs : FS} {d : Cache} (h : fs.cacheFile = .valid d) (k : Str) :
    fsLookup fs k = cacheGet d k := by
  unfold fsLookup
  rw [h]

theorem migrate_fsLookup (fs : FS) (k : Str) :
    fsLookup (migrate_legacy_cache fs) k = fsLookup fs k ∨ fsLookup fs k = none := by
  cases fs with
  | mk legacy file =>
      cases legacy with
      | none => exact .inl rfl
      | some d =>
          cases file with
          | missing => exact .inr rfl
          | corrupt => exact .inl rfl
          | valid d2 => exact .inl rfl

theorem loadCacheFS_eq_missing {fs : FS}
    (h : (migrate_legacy_cache fs).cacheFile = .missing) :
    loadCacheFS fs = ([], migrate_legacy_cache fs) := by
  unfold loadCacheFS
  rw [h]

theorem loadCacheFS_eq_corrupt {fs : FS}
    (h : (migrate_legacy_cache fs).cacheFile = .corrupt) :
    loadCacheFS fs = ([], migrate_legacy_cache fs) := by
  unfold loadCacheFS
  rw [h]

theorem loadCacheFS_eq_valid_purge {fs : FS} {d : Cache}
    (h : (migrate_legacy_cache fs).cacheFile = .valid d)
    (hp : anyPurgeKey d = true) :
    loadCacheFS fs =
      (purgeAll d,
       { legacy := (migrate_legacy_cache fs).legacy,
         cacheFile := .valid (purgeAll d) }) := by
  unfold loadCacheFS
  rw [h]
  simp [hp]

theorem loadCacheFS_eq_valid_nopurge {fs : FS} {d : Cache}
    (h : (migrate_legacy_cache fs).cacheFile = .valid d)
    (hp : anyPurgeKey d = false) :
    loadCacheFS fs = (d, migrate_legacy_cache fs) := by
  unfold loadCacheFS
  rw [h]
  simp [hp]

theorem loadCacheFS_get (fs : FS) (k : Str) :
    cacheGet (loadCacheFS fs).1 k = fsLookup (loadCacheFS fs).2 k := by
  rcases h2 : (migrate_legacy_cache fs).cacheFile with _ | _ | d
  · rw [loadCacheFS_eq_missing h2]
    simp [cacheGet, lookupK, fsLookup_missing h2]
  · rw [loadCacheFS_eq_corrupt h2]
    simp [cacheGet, lookupK, fsLookup_corrupt h2]
  · cases hp : anyPurgeKey d
    · rw [loadCacheFS_eq_valid_nopurge h2 hp]
      exact (fsLookup_valid h2 k).symm
    · rw [loadCacheFS_eq_valid_purge h2 hp]
      dsimp only
      rw [@fsLookup_valid (FS.mk (migrate_legacy_cache fs).legacy
        (.valid (purgeAll d))) (purgeAll d) rfl k]

theorem loadCacheFS_change (fs : FS) (k : Str) (hk : k ∉ KEYS_TO_PURGE_FROM_CACHE)
    (h : fsLookup (loadCacheFS fs).2 k ≠ fsLookup fs k) :
    fsLookup fs k = none := by
  rcases migrate_fsLookup fs k with hm | hm
  case inr => exact hm
  exfalso
  apply h
  rw [← hm]
  rcases h2 : (migrate_legacy_cache fs).cacheFile with _ | _ | d
  · rw [loadCacheFS_eq_missing h2]
  · rw [loadCacheFS_eq_corrupt h2]
  · cases hp : anyPurgeKey d
    · rw [loadCacheFS_eq_valid_nopurge h2 hp]
    · rw [loadCacheFS_eq_valid_purge h2 hp]
      dsimp only
      rw [@fsLookup_valid (FS.mk (migrate_legacy_cache fs).legacy
          (.valid (purgeAll d))) (purgeAll d) rfl k,
        cacheGet_purgeAll_not_mem d k hk, fsLookup_valid h2 k]

theorem loadCacheFS_preserve (fs : FS) (k : Str) (hk : k ∉ KEYS_TO_PURGE_FROM_CACHE)
    {w : CacheVal} (h : fsLookup fs k = some w) :
    cacheGet (loadCacheFS fs).1 k = some w ∧
      fsLookup (loadCacheFS fs).2 k = some w := by
  have h2 : fsLookup (loadCacheFS fs).2 k = some w := by
    by_cases hc : fsLookup (loadCacheFS fs).2 k = fsLookup fs k
    · rw [hc, h]
    · rw [loadCacheFS_change fs k hk hc] at h
      cases h
  exact ⟨(loadCacheFS_get fs k).trans h2, h2⟩

theorem loadCacheFS_idem (fs : FS) :
    loadCacheFS ((loadCacheFS fs).2) = ((loadCacheFS fs).1, (loadCacheFS fs).2) := by
  rcases h2 : (migrate_legacy_cache fs).cacheFile with _ | _ | d
  · rw [loadCacheFS_eq_missing h2]
    dsimp only
    rw [loadCacheFS_eq_missing (by rw [migrate_idem fs]; exact h2), migrate_idem fs]
  · rw [loadCacheFS_eq_corrupt h2]
    dsimp only
    rw [loadCacheFS_eq_corrupt (by rw [migrate_idem fs]; exact h2), migrate_idem fs]
  · cases hp : anyPurgeKey d
    · rw [loadCacheFS_eq_valid_nopurge h2 hp]
      dsimp only
      rw [loadCacheFS_eq_valid_nopurge (by rw [migrate_idem fs]; exact h2) hp,
        migrate_idem fs]
    · rw [loadCacheFS_eq_valid_purge h2 hp]
      dsimp only
      have hm3 : migrate_legacy_cache
          (FS.mk (migrate_legacy_cache fs).legacy (.valid (purgeAll d))) =
          FS.mk (migrate_legacy_cache fs).legacy (.valid (purgeAll d)) :=
        migrate_not_missing (by intro hx; cases hx)
      rw [loadCacheFS_eq_valid_nopurge (by rw [hm3]) (anyPurgeKey_purgeAll d), hm3]

/-! ## State-level bookkeeping lemmas -/

theorem load_cache_fst (s : GeoState) : (load_cache s).1 = (loadCacheFS s.fs).1 := rfl

theorem load_cache_snd (s : GeoState) :
    (load_cache s).2 = { s with fs := (loadCacheFS s.fs).2 } := rfl

theorem fileLookup_load (s : GeoState) (k : Str) :
    cacheGet (load_cache s).1 k = fileLookup (load_cache s).2 k :=
  loadCacheFS_get s.fs k

theorem fileLookup_load_change (s : GeoState) (k : Str)
    (hk : k ∉ KEYS_TO_PURGE_FROM_CACHE)
    (h : fileLookup (load_cache s).2 k ≠ fileLookup s k) :
    fileLookup s k = none :=
  loadCacheFS_change s.fs k hk h

theorem fileLookup_load_preserve (s : GeoState) (k : Str)
    (hk : k ∉ KEYS_TO_PURGE_FROM_CACHE) {w : CacheVal}
    (h : fileLookup s k = some w) :
    cacheGet (load_cache s).1 k = some w ∧
      fileLookup (load_cache s).2 k = some w :=
  loadCacheFS_preserve s.fs k hk h

theorem load_cache_idem (s : GeoState) :
    load_cache ((load_cache s).2) = ((load_cache s).1, (load_cache s).2) := by
  unfold load_cache
  dsimp only
  rw [loadCacheFS_idem s.fs]

theorem fileLookup_save (c : Cache) (s : GeoState) (k : Str) :
    fileLookup (save_cache c s) k = cacheGet c k := rfl

theorem fileLookup_fetch (f : Fetcher) (q cc : Str) (s : GeoState) (k : Str) :
    fileLookup (fetch_nominatim f q cc s).2 k = fileLookup s k := rfl

theorem fetch_snd (f : Fetcher) (q cc : Str) (s : GeoState) :
    (fetch_nominatim f q cc s).2 =
      { s with now := fetchTime s, lastReq := fetchTime s,
               fetchLog := (q, fetchTime s) :: s.fetchLog } := rfl

theorem fetch_fst (f : Fetcher) (q cc : Str) (s : GeoState) :
    (fetch_nominatim f q cc s).1 =
      (match fetchSuccess f cc q with
       | some p => (some p.1, some p.2)
       | none => (none, none)) := by
  show (match f q cc with
    | (some lat, some lon) =>
        if !lat.isEmpty && !lon.isEmpty then (some lat, some lon) else (none, none)
    | _ => ((none : Option Str), (none : Option Str))) = _
  unfold fetchSuccess
  rcases f q cc with ⟨_ | lat, _ | lon⟩
  · rfl
  · rfl
  · rfl
  · dsimp only
    by_cases hc : (!lat.isEmpty && !lon.isEmpty) = true
    · rw [if_pos hc, if_pos hc]
    · rw [if_neg hc, if_neg hc]

/-! ## Clock evolution (rate limiting) -/

theorem Evolves.same (s s' : GeoState) (h1 : s'.now = s.now)
    (h2 : s'.lastReq = s.lastReq) (h3 : s'.fetchLog = s.fetchLog) :
    Evolves s s' 0 := by
  refine ⟨by rw [h3, Nat.add_zero], ?_, le_of_eq h1.symm, fun _ => ⟨h1, h2⟩,
    fun hn => absurd hn (by simp)⟩
  rw [h2]
  simp

theorem evolves_refl (s : GeoState) : Evolves s s 0 :=
  Evolves.same s s (Eq.refl _) (Eq.refl _) (Eq.refl _)

theorem Evolves.chain {s s' s'' : GeoState} {n1 n2 : ℕ}
    (e1 : Evolves s s' n1) (e2 : Evolves s' s'' n2) :
    Evolves s s'' (n1 + n2) := by
  have hR : (0 : ℚ) < RATE_LIMIT_SEC := by norm_num [RATE_LIMIT_SEC]
  refine ⟨?_, ?_, le_trans e1.now_ge e2.now_ge, ?_, ?_⟩
  · rw [e2.log_len, e1.log_len, Nat.add_assoc]
  · have h1 := e1.last_ge
    have h2 := e2.last_ge
    push_cast
    push_cast at h1 h2
    nlinarith [hR]
  · intro hz
    rcases Nat.add_eq_zero.mp hz with ⟨hz1, hz2⟩
    obtain ⟨ha, hb⟩ := e1.zero_eq hz1
    obtain ⟨hc, hd⟩ := e2.zero_eq hz2
    exact ⟨hc.trans ha, hd.trans hb⟩
  · intro hn
    rcases Nat.eq_zero_or_pos n2 with hz2 | hp2
    · subst hz2
      obtain ⟨hc, hd⟩ := e2.zero_eq (Eq.refl 0)
      have hp1 : 1 ≤ n1 := by omega
      obtain ⟨ha, hb⟩ := e1.pos_eq hp1
      constructor
      · rw [hc, hd, ha]
      · rw [Nat.add_zero]
        rw [hc]
        exact hb
    · obtain ⟨hc, hd⟩ := e2.pos_eq hp2
      constructor
      · exact hc
      · rcases Nat.eq_zero_or_pos n1 with hz1 | hp1
        · subst hz1
          obtain ⟨ha, hb⟩ := e1.zero_eq (Eq.refl 0)
          rw [Nat.zero_add]
          rw [ha] at hd
          exact hd
        · obtain ⟨ha, hb⟩ := e1.pos_eq hp1
          have h2last := e2.last_ge
          have : s'.lastReq = s'.now := ha.symm
          push_cast
          push_cast at hb hd h2last
          nlinarith [hR]

theorem save_cache_fs (c : Cache) (s : GeoState) :
    (save_cache c s).fs = FS.mk s.fs.legacy (.valid c) := rfl

theorem fetch_fs (f : Fetcher) (q cc : Str) (s : GeoState) :
    (fetch_nominatim f q cc s).2.fs = s.fs := rfl

theorem fetchSuccess_nonempty {f : Fetcher} {cc fb : Str} {a b : Str}
    (h : fetchSuccess f cc fb = some (a, b)) :
    (!a.isEmpty && !b.isEmpty) = true := by
  unfold fetchSuccess at h
  rcases hv : f fb cc with ⟨_ | lat, _ | lon⟩ <;> rw [hv] at h
  · cases h
  · cases h
  · cases h
  · dsimp only at h
    by_cases hc : (!lat.isEmpty && !lon.isEmpty) = true
    · rw [if_pos hc] at h
      cases h
      exact hc
    · rw [if_neg hc] at h
      cases h

theorem evolves_fetch (f : Fetcher) (q cc : Str) (s : GeoState) :
    Evolves s (fetch_nominatim f q cc s).2 1 := by
  rw [fetch_snd]
  have hR : (0 : ℚ) < RATE_LIMIT_SEC := by norm_num [RATE_LIMIT_SEC]
  have hts : s.lastReq + RATE_LIMIT_SEC ≤ fetchTime s ∧ s.now ≤ fetchTime s := by
    unfold fetchTime
    by_cases hc : s.now - s.lastReq < RATE_LIMIT_SEC
    · rw [if_pos hc]
      constructor <;> linarith
    · rw [if_neg hc]
      push_neg at hc
      constructor <;> linarith
  refine ⟨by simp, by push_cast; simpa using hts.1, hts.2,
    fun hz => absurd hz (by simp), fun _ => ⟨Eq.refl _, by push_cast; linarith [hts.2]⟩⟩

/-! ## Step equations for the fallback loops -/

theorem tryNeg_step_fail {f : Fetcher} {cc fb : Str} (q : Str) (cache : Cache)
    (rest : List Str) (s : GeoState) (hfs : fetchSuccess f cc fb = none) :
    tryFallbacksNeg f cc q cache (fb :: rest) s =
      tryFallbacksNeg f cc q cache rest (fetch_nominatim f fb cc s).2 := by
  simp only [tryFallbacksNeg]
  rw [fetch_fst, hfs]

theorem tryNeg_step_succ {f : Fetcher} {cc fb : Str} (q : Str) (cache : Cache)
    (rest : List Str) (s : GeoState) {a b : Str}
    (hfs : fetchSuccess f cc fb = some (a, b)) :
    tryFallbacksNeg f cc q cache (fb :: rest) s =
      (some (.pstr a, .pstr b),
       save_cache (cacheSet cache q
           (some (Entry.mk (some (.pstr a)) (some (.pstr b)))))
         (fetch_nominatim f fb cc s).2) := by
  simp only [tryFallbacksNeg]
  rw [fetch_fst, hfs]
  dsimp only
  rw [if_pos (fetchSuccess_nonempty hfs)]

theorem tryMiss_step_fail {f : Fetcher} {cc fb : Str} (q : Str)
    (rest : List Str) (s : GeoState) (hfs : fetchSuccess f cc fb = none) :
    tryFallbacksMiss f cc q (fb :: rest) s =
      tryFallbacksMiss f cc q rest (fetch_nominatim f fb cc s).2 := by
  simp only [tryFallbacksMiss]
  rw [fetch_fst, hfs]

theorem tryMiss_step_succ {f : Fetcher} {cc fb : Str} (q : Str)
    (rest : List Str) (s : GeoState) {a b : Str}
    (hfs : fetchSuccess f cc fb = some (a, b)) :
    tryFallbacksMiss f cc q (fb :: rest) s =
      (some (.pstr a, .pstr b),
       save_cache (cacheSet (load_cache (fetch_nominatim f fb cc s).2).1 q
           (some (Entry.mk (some (.pstr a)) (some (.pstr b)))))
         (load_cache (fetch_nominatim f fb cc s).2).2) := by
  simp only [tryFallbacksMiss]
  rw [fetch_fst, hfs]
  dsimp only
  rw [if_pos (fetchSuccess_nonempty hfs)]

/-! ## Result and file effects of the fallback loops -/

theorem tryFallbacksNeg_fst (f : Fetcher) (cc q : Str) (cache : Cache)
    (fbs : List Str) : ∀ s : GeoState,
    (tryFallbacksNeg f cc q cache fbs s).1 =
      (firstSuccess f cc fbs).map (fun p => (PyVal.pstr p.1, PyVal.pstr p.2)) := by
  induction fbs with
  | nil => intro s; rfl
  | cons fb rest ih =>
      intro s
      rcases hfs : fetchSuccess f cc fb with _ | ⟨a, b⟩
      · rw [tryNeg_step_fail q cache rest s hfs, ih]
        simp only [firstSuccess, hfs]
      · rw [tryNeg_step_succ q cache rest s hfs]
        simp only [firstSuccess, hfs]
        rfl

theorem tryFallbacksNeg_fail_fs (f : Fetcher) (cc q : Str) (cache : Cache)
    (fbs : List Str) (hn : firstSuccess f cc fbs = none) : ∀ s : GeoState,
    (tryFallbacksNeg f cc q cache fbs s).2.fs = s.fs := by
  induction fbs with
  | nil => intro s; rfl
  | cons fb rest ih =>
      intro s
      rcases hfs : fetchSuccess f cc fb with _ | ⟨a, b⟩
      · have hn2 : firstSuccess f cc rest = none := by
          simpa only [firstSuccess, hfs] using hn
        rw [tryNeg_step_fail q cache rest s hfs, ih hn2, fetch_fs]
      · exfalso
        simp only [firstSuccess, hfs] at hn
        cases hn

theorem tryFallbacksNeg_succ_fs (f : Fetcher) (cc q : Str) (cache : Cache)
    (fbs : List Str) {a b : Str}
    (hs : firstSuccess f cc fbs = some (a, b)) : ∀ s : GeoState,
    (tryFallbacksNeg f cc q cache fbs s).2.fs =
      FS.mk s.fs.legacy
        (.valid (cacheSet cache q
          (some (Entry.mk (some (.pstr a)) (some (.pstr b)))))) := by
  induction fbs with
  | nil => cases hs
  | cons fb rest ih =>
      intro s
      rcases hfs : fetchSuccess f cc fb with _ | ⟨a2, b2⟩
      · have hs2 : firstSuccess f cc rest = some (a, b) := by
          simpa only [firstSuccess, hfs] using hs
        rw [tryNeg_step_fail q cache rest s hfs, ih hs2, fetch_fs]
      · have : a2 = a ∧ b2 = b := by
          simp only [firstSuccess, hfs] at hs
          cases hs
          exact ⟨rfl, rfl⟩
        obtain ⟨rfl, rfl⟩ := this
        rw [tryNeg_step_succ q cache rest s hfs]
        rw [save_cache_fs, fetch_fs]

theorem tryFallbacksMiss_fst (f : Fetcher) (cc q : Str)
    (fbs : List Str) : ∀ s : GeoState,
    (tryFallbacksMiss f cc q fbs s).1 =
      (firstSuccess f cc fbs).map (fun p => (PyVal.pstr p.1, PyVal.pstr p.2)) := by
  induction fbs with
  | nil => intro s; rfl
  | cons fb rest ih =>
      intro s
      rcases hfs : fetchSuccess f cc fb with _ | ⟨a, b⟩
      · rw [tryMiss_step_fail q rest s hfs, ih]
        simp only [firstSuccess, hfs]
      · rw [tryMiss_step_succ q rest s hfs]
        simp only [firstSuccess, hfs]
        rfl

theorem tryFallbacksMiss_fail_fs (f : Fetcher) (cc q : Str)
    (fbs : List Str) (hn : firstSuccess f cc fbs = none) : ∀ s : GeoState,
    (tryFallbacksMiss f cc q fbs s).2.fs = s.fs := by
  induction fbs with
  | nil => intro s; rfl
  | cons fb rest ih =>
      intro s
      rcases hfs : fetchSuccess f cc fb with _ | ⟨a, b⟩
      · have hn2 : firstSuccess f cc rest = none := by
          simpa only [firstSuccess, hfs] using hn
        rw [tryMiss_step_fail q rest s hfs, ih hn2, fetch_fs]
      · exfalso
        simp only [firstSuccess, hfs] at hn
        cases hn

theorem tryFallbacksMiss_succ (f : Fetcher) (cc q : Str)
    (fbs : List Str) {a b : Str}
    (hs : firstSuccess f cc fbs = some (a, b)) : ∀ s : GeoState,
    fileLookup (tryFallbacksMiss f cc q fbs s).2 q =
      some (some (Entry.mk (some (.pstr a)) (some (.pstr b)))) ∧
    (∀ k, k ≠ q → k ∉ KEYS_TO_PURGE_FROM_CACHE →
      fileLookup (tryFallbacksMiss f cc q fbs s).2 k ≠ fileLookup s k →
      fileLookup s k = none) := by
  induction fbs with
  | nil => cases hs
  | cons fb rest ih =>
      intro s
      rcases hfs : fetchSuccess f cc fb with _ | ⟨a2, b2⟩
      · have hs2 : firstSuccess f cc rest = some (a, b) := by
          simpa only [firstSuccess, hfs] using hs
        rw [tryMiss_step_fail q rest s hfs]
        obtain ⟨ih1, ih2⟩ := ih hs2 (fetch_nominatim f fb cc s).2
        refine ⟨ih1, fun k hkq hkp hne => ?_⟩
        rw [← fileLookup_fetch f fb cc s k]
        apply ih2 k hkq hkp
        rw [fileLookup_fetch]
        exact hne
      · have : a2 = a ∧ b2 = b := by
          simp only [firstSuccess, hfs] at hs
          cases hs
          exact ⟨rfl, rfl⟩
        obtain ⟨rfl, rfl⟩ := this
        rw [tryMiss_step_succ q rest s hfs]
        constructor
        · rw [fileLookup_save]
          exact cacheGet_set_self _ q _
        · intro k hkq hkp hne
          rw [fileLookup_save, cacheGet_set_ne _ q k _ hkq,
            fileLookup_load] at hne
          rw [← fileLookup_fetch f fb cc s k]
          apply fileLookup_load_change _ k hkp
          rw [fileLookup_fetch]
          exact hne

/-! ## The corrected query is never a purge key -/

theorem lookupK_isSome_of_mem_keys {α : Type} (l : List (Str × α)) (k : Str)
    (h : k ∈ l.map Prod.fst) : (lookupK l k).isSome = true := by
  induction l with
  | nil => cases h
  | cons p rest ih =>
      rcases List.mem_cons.mp h with he | hm
      · simp [lookupK, he.symm]
      · by_cases hp : p.1 = k
        · simp [lookupK, hp]
        · simp only [lookupK, if_neg hp]
          exact ih hm

theorem lookupK_mem_values {α : Type} (l : List (Str × α)) (k : Str) (v : α)
    (h : lookupK l k = some v) : v ∈ l.map Prod.snd := by
  induction l with
  | nil => cases h
  | cons p rest ih =>
      by_cases hp : p.1 = k
      · rw [lookupK, if_pos hp] at h
        cases h
        exact List.mem_cons_self _ _
      · rw [lookupK, if_neg hp] at h
        exact List.mem_cons_of_mem _ (ih h)

theorem correction_values_not_purged :
    ∀ v ∈ CACHE_QUERY_CORRECTIONS.map Prod.snd, v ∉ KEYS_TO_PURGE_FROM_CACHE := by
  decide

theorem corrected_not_purged (q0 : Str) :
    corrected q0 ∉ KEYS_TO_PURGE_FROM_CACHE := by
  unfold corrected
  rcases hl : lookupK CACHE_QUERY_CORRECTIONS q0 with _ | v
  · intro hmem
    have := lookupK_isSome_of_mem_keys CACHE_QUERY_CORRECTIONS q0 hmem
    rw [hl] at this
    cases this
  · exact correction_values_not_purged v
      (lookupK_mem_values CACHE_QUERY_CORRECTIONS q0 v hl)

theorem not_corrected_of_not_purged (q0 : Str)
    (h : q0 ∉ KEYS_TO_PURGE_FROM_CACHE) : corrected q0 = q0 := by
  unfold corrected
  rcases hl : lookupK CACHE_QUERY_CORRECTIONS q0 with _ | v
  · rfl
  · exfalso
    apply h
    unfold KEYS_TO_PURGE_FROM_CACHE
    revert hl
    generalize CACHE_QUERY_CORRECTIONS = l
    intro hl
    induction l with
    | nil => cases hl
    | cons p rest ih =>
        by_cases hp : p.1 = q0
        · rw [List.map_cons, hp]
          exact List.mem_cons_self _ _
        · rw [lookupK, if_neg hp] at hl
          exact List.mem_cons_of_mem _ (ih hl)

/-! ## More state bookkeeping -/

theorem load_cache_now (s : GeoState) : (load_cache s).2.now = s.now := rfl

theorem load_cache_lastReq (s : GeoState) : (load_cache s).2.lastReq = s.lastReq := rfl

theorem load_cache_log (s : GeoState) : (load_cache s).2.fetchLog = s.fetchLog := rfl

theorem save_cache_now (c : Cache) (s : GeoState) : (save_cache c s).now = s.now := rfl

theorem save_cache_lastReq (c : Cache) (s : GeoState) :
    (save_cache c s).lastReq = s.lastReq := rfl

theorem save_cache_log (c : Cache) (s : GeoState) :
    (save_cache c s).fetchLog = s.fetchLog := rfl

theorem fileLookup_of_fs_valid {s : GeoState} {c : Cache}
    (h : s.fs = FS.mk (s.fs.legacy) (.valid c)) (k : Str) :
    fileLookup s k = cacheGet c k := by
  unfold fileLookup
  exact fsLookup_valid (by rw [h]) k

/-! ## Branch equations of geocode_address -/

theorem ga_eq_nobuild (f : Fetcher) (a c : Option Str) (sk fb : Bool)
    (s : GeoState) (hb : build_query a c = none) :
    geocode_address f a c sk fb s = (none, s) := by
  unfold geocode_address
  rw [hb]

theorem ga_eq_hit (f : Fetcher) (a c : Option Str) (sk fb : Bool)
    (s : GeoState) (q0 : Str) (e : Entry) (hb : build_query a c = some q0)
    (hget : cacheGet (load_cache s).1 (corrected q0) = some (some e)) :
    geocode_address f a c sk fb s = (cacheHitResult e, (load_cache s).2) := by
  unfold geocode_address
  rw [hb]
  dsimp only
  rw [hget]

theorem ga_eq_neg_skip (f : Fetcher) (a c : Option Str) (fb : Bool)
    (s : GeoState) (q0 : Str) (hb : build_query a c = some q0)
    (hget : cacheGet (load_cache s).1 (corrected q0) = some none) :
    geocode_address f a c true fb s = (none, (load_cache s).2) := by
  unfold geocode_address
  rw [hb]
  dsimp only
  rw [hget]

theorem ga_eq_neg_fb (f : Fetcher) (a c : Option Str)
    (s : GeoState) (q0 : Str) (hb : build_query a c = some q0)
    (hget : cacheGet (load_cache s).1 (corrected q0) = some none) :
    geocode_address f a c false true s =
      tryFallbacksNeg f (pyUpper (c.getD [])) (corrected q0) (load_cache s).1
        (fallback_queries (corrected q0)) (load_cache s).2 := by
  unfold geocode_address
  rw [hb]
  dsimp only
  rw [hget]

theorem ga_eq_neg_nofb (f : Fetcher) (a c : Option Str)
    (s : GeoState) (q0 : Str) (hb : build_query a c = some q0)
    (hget : cacheGet (load_cache s).1 (corrected q0) = some none) :
    geocode_address f a c false false s = (none, (load_cache s).2) := by
  unfold geocode_address
  rw [hb]
  dsimp only
  rw [hget]

theorem ga_eq_miss_skip (f : Fetcher) (a c : Option Str) (fb : Bool)
    (s : GeoState) (q0 : Str) (hb : build_query a c = some q0)
    (hget : cacheGet (load_cache s).1 (corrected q0) = none) :
    geocode_address f a c true fb s = (none, (load_cache s).2) := by
  unfold geocode_address
  rw [hb]
  dsimp only
  rw [hget]

theorem ga_eq_miss_fetch_succ (f : Fetcher) (a c : Option Str) (fb : Bool)
    (s : GeoState) (q0 : Str) {la lb : Str} (hb : build_query a c = some q0)
    (hget : cacheGet (load_cache s).1 (corrected q0) = none)
    (hfs : fetchSuccess f (pyUpper (c.getD [])) (corrected q0) = some (la, lb)) :
    geocode_address f a c false fb s =
      (some (.pstr la, .pstr lb),
       save_cache
         (cacheSet (load_cache (fetch_nominatim f (corrected q0)
             (pyUpper (c.getD [])) (load_cache s).2).2).1 (corrected q0)
           (some (Entry.mk (some (.pstr la)) (some (.pstr lb)))))
         (load_cache (fetch_nominatim f (corrected q0)
             (pyUpper (c.getD [])) (load_cache s).2).2).2) := by
  unfold geocode_address
  rw [hb]
  dsimp only
  rw [hget]
  dsimp only
  rw [fetch_fst, hfs]
  dsimp only
  rw [if_pos (fetchSuccess_nonempty hfs)]

theorem ga_eq_miss_fetch_fail (f : Fetcher) (a c : Option Str) (fb : Bool)
    (s : GeoState) (q0 : Str) (hb : build_query a c = some q0)
    (hget : cacheGet (load_cache s).1 (corrected q0) = none)
    (hfs : fetchSuccess f (pyUpper (c.getD [])) (corrected q0) = none) :
    geocode_address f a c false fb s =
      geocodeMissFail f (pyUpper (c.getD [])) (corrected q0) fb
        (fetch_nominatim f (corrected q0) (pyUpper (c.getD []))
          (load_cache s).2).2 := by
  unfold geocode_address
  rw [hb]
  dsimp only
  rw [hget]
  dsimp only
  rw [fetch_fst, hfs]

/-! ## Branch equations of geocodeMissFail -/

theorem gmf_false (f : Fetcher) (cc q : Str) (s : GeoState) :
    geocodeMissFail f cc q false s =
      (none, save_cache (cacheSet (load_cache s).1 q none) (load_cache s).2) := by
  unfold geocodeMissFail
  dsimp only

theorem gmf_true_fail (f : Fetcher) (cc q : Str) (s : GeoState)
    (hn : firstSuccess f cc (fallback_queries q) = none) :
    geocodeMissFail f cc q true s =
      (none, save_cache
        (cacheSet
          (load_cache (tryFallbacksMiss f cc q (fallback_queries q) s).2).1 q none)
        (load_cache (tryFallbacksMiss f cc q (fallback_queries q) s).2).2) := by
  unfold geocodeMissFail
  dsimp only
  rw [tryFallbacksMiss_fst f cc q (fallback_queries q) s, hn]
  dsimp only [Option.map]

theorem gmf_true_succ (f : Fetcher) (cc q : Str) (s : GeoState) {la lb : Str}
    (hs : firstSuccess f cc (fallback_queries q) = some (la, lb)) :
    geocodeMissFail f cc q true s =
      (some (.pstr la, .pstr lb),
       (tryFallbacksMiss f cc q (fallback_queries q) s).2) := by
  unfold geocodeMissFail
  dsimp only
  rw [tryFallbacksMiss_fst f cc q (fallback_queries q) s, hs]
  dsimp only [Option.map]

/-! ## Call reductions from a known durable-file slot -/

theorem fileLookup_eq (s : GeoState) (k : Str) :
    fileLookup s k = fsLookup s.fs k := rfl

theorem fsLookup_mk_valid (leg : Option Cache) (c : Cache) (k : Str) :
    fsLookup (FS.mk leg (.valid c)) k = cacheGet c k := rfl

theorem firstSuccess_nonempty {f : Fetcher} {cc : Str} {fbs : List Str}
    {a b : Str} (h : firstSuccess f cc fbs = some (a, b)) :
    (!a.isEmpty && !b.isEmpty) = true := by
  induction fbs with
  | nil => cases h
  | cons fb rest ih =>
      rcases hfs : fetchSuccess f cc fb with _ | ⟨a2, b2⟩
      · simp only [firstSuccess, hfs] at h
        exact ih h
      · simp only [firstSuccess, hfs] at h
        cases h
        exact fetchSuccess_nonempty hfs

theorem cacheHitResult_written {a b : Str}
    (h : (!a.isEmpty && !b.isEmpty) = true) :
    cacheHitResult (Entry.mk (some (.pstr a)) (some (.pstr b))) =
      some (.pstr a, .pstr b) := by
  unfold cacheHitResult
  dsimp only [PyVal.truthy]
  rw [if_pos h]

theorem ga_cached_entry (f : Fetcher) (a c : Option Str) (sk fb : Bool)
    (s : GeoState) (q0 : Str) (e : Entry) (hb : build_query a c = some q0)
    (hw : fileLookup s (corrected q0) = some (some e)) :
    geocode_address f a c sk fb s = (cacheHitResult e, (load_cache s).2) :=
  ga_eq_hit f a c sk fb s q0 e hb
    (fileLookup_load_preserve s (corrected q0) (corrected_not_purged q0) hw).1

theorem ga_cached_neg_fb (f : Fetcher) (a c : Option Str)
    (s : GeoState) (q0 : Str) (hb : build_query a c = some q0)
    (hw : fileLookup s (corrected q0) = some none) :
    geocode_address f a c false true s =
      tryFallbacksNeg f (pyUpper (c.getD [])) (corrected q0) (load_cache s).1
        (fallback_queries (corrected q0)) (load_cache s).2 :=
  ga_eq_neg_fb f a c s q0 hb
    (fileLookup_load_preserve s (corrected q0) (corrected_not_purged q0) hw).1

theorem ga_cached_neg_nofb (f : Fetcher) (a c : Option Str)
    (s : GeoState) (q0 : Str) (hb : build_query a c = some q0)
    (hw : fileLookup s (corrected q0) = some none) :
    geocode_address f a c false false s = (none, (load_cache s).2) :=
  ga_eq_neg_nofb f a c s q0 hb
    (fileLookup_load_preserve s (corrected q0) (corrected_not_purged q0) hw).1

/-- After a `skip_api = false` call, the slot of the corrected query in
the durable file either holds an entry that reproduces the call's
result as a cache hit, or holds `Negative` after a `none` result (with
every fallback fetch failing whenever fallbacks were enabled). -/
theorem ga_post (f : Fetcher) (a c : Option Str) (b : Bool) (s : GeoState)
    (q0 : Str) (hb : build_query a c = some q0) :
    (∃ e, (geocode_address f a c false b s).1 = cacheHitResult e ∧
        fileLookup (geocode_address f a c false b s).2 (corrected q0) =
          some (some e)) ∨
    ((geocode_address f a c false b s).1 = none ∧
      fileLookup (geocode_address f a c false b s).2 (corrected q0) = some none ∧
      (b = true →
        firstSuccess f (pyUpper (c.getD []))
          (fallback_queries (corrected q0)) = none)) := by
  rcases hget : cacheGet (load_cache s).1 (corrected q0) with _ | (_ | e)
  · -- cache miss
    rcases hfs : fetchSuccess f (pyUpper (c.getD [])) (corrected q0) with _ | ⟨la, lb⟩
    · -- primary fetch fails
      rw [ga_eq_miss_fetch_fail f a c b s q0 hb hget hfs]
      cases b
      · rw [gmf_false]
        refine .inr ⟨rfl, ?_, fun hbt => absurd hbt (by simp)⟩
        rw [fileLookup_save]
        exact cacheGet_set_self _ _ _
      · rcases hfx : firstSuccess f (pyUpper (c.getD []))
            (fallback_queries (corrected q0)) with _ | ⟨la, lb⟩
        · rw [gmf_true_fail _ _ _ _ hfx]
          refine .inr ⟨rfl, ?_, fun _ => rfl⟩
          rw [fileLookup_save]
          exact cacheGet_set_self _ _ _
        · rw [gmf_true_succ _ _ _ _ hfx]
          refine .inl ⟨Entry.mk (some (.pstr la)) (some (.pstr lb)), ?_, ?_⟩
          · dsimp only
            exact (cacheHitResult_written (firstSuccess_nonempty hfx)).symm
          · dsimp only
            exact (tryFallbacksMiss_succ f _ _ _ hfx _).1
    · -- primary fetch succeeds
      rw [ga_eq_miss_fetch_succ f a c b s q0 hb hget hfs]
      refine .inl ⟨Entry.mk (some (.pstr la)) (some (.pstr lb)), ?_, ?_⟩
      · dsimp only
        exact (cacheHitResult_written (fetchSuccess_nonempty hfs)).symm
      · dsimp only
        rw [fileLookup_save]
        exact cacheGet_set_self _ _ _
  · -- Negative cached
    cases b
    · rw [ga_eq_neg_nofb f a c s q0 hb hget]
      refine .inr ⟨rfl, ?_, fun hbt => absurd hbt (by simp)⟩
      rw [← fileLookup_load s (corrected q0)]
      exact hget
    · rw [ga_eq_neg_fb f a c s q0 hb hget]
      rcases hfx : firstSuccess f (pyUpper (c.getD []))
          (fallback_queries (corrected q0)) with _ | ⟨la, lb⟩
      · refine .inr ⟨?_, ?_, fun _ => rfl⟩
        · rw [tryFallbacksNeg_fst, hfx]
          rfl
        · rw [fileLookup_eq,
            tryFallbacksNeg_fail_fs f (pyUpper (c.getD [])) (corrected q0)
              (load_cache s).1 (fallback_queries (corrected q0)) hfx (load_cache s).2,
            ← fileLookup_eq, ← fileLookup_load s (corrected q0)]
          exact hget
      · refine .inl ⟨Entry.mk (some (.pstr la)) (some (.pstr lb)), ?_, ?_⟩
        · rw [tryFallbacksNeg_fst, hfx]
          exact (cacheHitResult_written (firstSuccess_nonempty hfx)).symm
        · rw [fileLookup_eq,
            tryFallbacksNeg_succ_fs f (pyUpper (c.getD [])) (corrected q0)
              (load_cache s).1 (fallback_queries (corrected q0)) hfx (load_cache s).2,
            fsLookup_mk_valid]
          exact cacheGet_set_self _ _ _
  · -- truthy or degenerate entry cached
    rw [ga_eq_hit f a c false b s q0 e hb hget]
    refine .inl ⟨e, rfl, ?_⟩
    rw [← fileLookup_load s (corrected q0)]
    exact hget

/-- Calling `geocode_address` twice in sequence with `skip_api = false`
yields the same result both times, and whenever the first call produced
a coordinate the second call issues no provider request. -/
theorem ga_idempotent (f : Fetcher) (a c : Option Str) (b : Bool)
    (s : GeoState) :
    (geocode_address f a c false b ((geocode_address f a c false b s).2)).1 =
      (geocode_address f a c false b s).1 ∧
    (∀ v, (geocode_address f a c false b s).1 = some v →
      (geocode_address f a c false b
          ((geocode_address f a c false b s).2)).2.fetchLog =
        (geocode_address f a c false b s).2.fetchLog) := by
  rcases hb : build_query a c with _ | q0
  · rw [ga_eq_nobuild f a c false b s hb]
    dsimp only
    rw [ga_eq_nobuild f a c false b s hb]
    exact ⟨rfl, fun v hv => by cases hv⟩
  · rcases ga_post f a c b s q0 hb with ⟨e, hr, hw⟩ | ⟨hr, hw, himp⟩
    · rw [ga_cached_entry f a c false b _ q0 e hb hw]
      dsimp only
      exact ⟨hr.symm, fun v _ => load_cache_log _⟩
    · cases b
      · rw [ga_cached_neg_nofb f a c _ q0 hb hw]
        dsimp only
        refine ⟨hr.symm, fun v hv => ?_⟩
        rw [hr] at hv
        cases hv
      · rw [ga_cached_neg_fb f a c _ q0 hb hw,
          tryFallbacksNeg_fst, himp rfl]
        dsimp only [Option.map]
        refine ⟨hr.symm, fun v hv => ?_⟩
        rw [hr] at hv
        cases hv

/-! ## Cache write discipline -/

theorem PreservesS.toPreserves {s s' : GeoState} (h : PreservesS s s') :
    Preserves s s' := by
  intro k hk hne
  rw [h k hk hne]
  rfl

theorem preserves_refl (s : GeoState) : Preserves s s :=
  fun _ _ hne => absurd rfl hne

theorem preservesS_refl (s : GeoState) : PreservesS s s :=
  fun _ _ hne => absurd rfl hne

theorem Preserves.chainP {s s' s'' : GeoState} (h1 : Preserves s s')
    (h2 : Preserves s' s'') : Preserves s s'' := by
  intro k hk hne
  by_cases he : fileLookup s' k = fileLookup s k
  · have : fileLookup s'' k ≠ fileLookup s' k := by rw [he]; exact hne
    rw [← he]
    exact h2 k hk this
  · exact h1 k hk he

theorem PreservesS.chainS {s s' s'' : GeoState} (h1 : PreservesS s s')
    (h2 : PreservesS s' s'') : PreservesS s s'' := by
  intro k hk hne
  by_cases he : fileLookup s' k = fileLookup s k
  · have : fileLookup s'' k ≠ fileLookup s' k := by rw [he]; exact hne
    rw [← he]
    exact h2 k hk this
  · exact h1 k hk he

theorem preservesS_load (s : GeoState) : PreservesS s (load_cache s).2 :=
  fun k hk hne => fileLookup_load_change s k hk hne

theorem load_cache_fs (s : GeoState) :
    (load_cache s).2.fs = (loadCacheFS s.fs).2 := rfl

theorem fileLookup_fs_eq {s X : GeoState} (h : X.fs = s.fs) (k : Str) :
    fileLookup X k = fileLookup s k := by
  rw [fileLookup_eq, h, ← fileLookup_eq]

/-- Re-loading a state whose file system equals a freshly-loaded one
returns the same mapping and leaves the file system unchanged. -/
theorem load_after_load (s X : GeoState) (hX : X.fs = (load_cache s).2.fs) :
    (load_cache X).1 = (load_cache s).1 ∧
      (load_cache X).2.fs = (load_cache s).2.fs := by
  have h1 : loadCacheFS X.fs = ((loadCacheFS s.fs).1, (loadCacheFS s.fs).2) := by
    rw [hX, load_cache_fs]
    exact loadCacheFS_idem s.fs
  constructor
  · rw [load_cache_fst, load_cache_fst, h1]
  · rw [load_cache_fs, load_cache_fs, h1]

/-- A query that the freshly-loaded mapping lacks is also absent from
the durable file before the load. -/
theorem miss_origin_none (s : GeoState) (q : Str)
    (hq : q ∉ KEYS_TO_PURGE_FROM_CACHE)
    (hget : cacheGet (load_cache s).1 q = none) :
    fileLookup s q = none := by
  have h2 : fileLookup (load_cache s).2 q = none := by
    rw [← fileLookup_load]
    exact hget
  by_cases heq : fileLookup (load_cache s).2 q = fileLookup s q
  · rw [heq] at h2
    exact h2
  · exact fileLookup_load_change s q hq heq

/-- A state whose file system equals a freshly-loaded one strongly
preserves the original state's slots. -/
theorem preservesS_fs_link {s s' : GeoState}
    (h : s'.fs = (load_cache s).2.fs) : PreservesS s s' := by
  intro k hk hne
  rw [fileLookup_eq, h, ← fileLookup_eq] at hne
  exact fileLookup_load_change s k hk hne

/-- Writing a fresh value under a previously-absent query after a
re-load only changes that absent slot. -/
theorem preservesS_write_after_reload (s X : GeoState) (q : Str) (v : CacheVal)
    (hX : X.fs = (load_cache s).2.fs) (hq : q ∉ KEYS_TO_PURGE_FROM_CACHE)
    (hget : cacheGet (load_cache s).1 q = none) :
    PreservesS s (save_cache (cacheSet (load_cache X).1 q v) (load_cache X).2) := by
  intro k hk hne
  rw [fileLookup_save] at hne
  by_cases hkq : k = q
  · subst hkq
    exact miss_origin_none s k hk hget
  · rw [cacheGet_set_ne _ q k v hkq, (load_after_load s X hX).1,
      fileLookup_load] at hne
    exact fileLookup_load_change s k hk hne

/-- Upgrading a `Negative` slot in the mapping loaded at call start and
persisting the result only changes that `Negative` slot. -/
theorem preserves_neg_upgrade (s : GeoState) (q : Str) (v : CacheVal)
    (s' : GeoState)
    (hfs' : s'.fs = FS.mk (load_cache s).2.fs.legacy
      (.valid (cacheSet (load_cache s).1 q v)))
    (hq : q ∉ KEYS_TO_PURGE_FROM_CACHE)
    (hget : cacheGet (load_cache s).1 q = some none) :
    Preserves s s' := by
  intro k hk hne
  rw [fileLookup_eq, hfs', fsLookup_mk_valid] at hne
  by_cases hkq : k = q
  · subst hkq
    have h2 : fileLookup (load_cache s).2 k = some none := by
      rw [← fileLookup_load]
      exact hget
    by_cases heq : fileLookup (load_cache s).2 k = fileLookup s k
    · rw [heq] at h2
      rw [h2]
      rfl
    · rw [fileLookup_load_change s k hk heq]
      rfl
  · rw [cacheGet_set_ne _ q k v hkq, fileLookup_load] at hne
    rw [fileLookup_load_change s k hk hne]
    rfl

/-- The fallback loop of `geocode_event_location`'s failing sub-calls:
weak preservation for the cache-miss fallback walk. -/
theorem preserves_tryMiss_succ (s X : GeoState) (f : Fetcher) (cc q : Str)
    {la lb : Str} (hX : X.fs = (load_cache s).2.fs)
    (hq : q ∉ KEYS_TO_PURGE_FROM_CACHE)
    (hget : cacheGet (load_cache s).1 q = none)
    (hfx : firstSuccess f cc (fallback_queries q) = some (la, lb)) :
    PreservesS s (tryFallbacksMiss f cc q (fallback_queries q) X).2 := by
  intro k hk hne
  obtain ⟨hq1, hqk⟩ := tryFallbacksMiss_succ f cc q (fallback_queries q) hfx X
  by_cases hkq : k = q
  · subst hkq
    exact miss_origin_none s k hk hget
  · by_cases hYX : fileLookup (tryFallbacksMiss f cc q (fallback_queries q) X).2 k =
        fileLookup X k
    · rw [hYX, fileLookup_fs_eq hX] at hne
      exact fileLookup_load_change s k hk hne
    · have hXn : fileLookup X k = none := hqk k hkq hk hYX
      rw [fileLookup_fs_eq hX] at hXn
      by_cases heq : fileLookup (load_cache s).2 k = fileLookup s k
      · rw [← heq, hXn]
      · exact fileLookup_load_change s k hk heq

/-- `geocode_address` with fallbacks disabled changes only
previously-absent slots (outside the purge set). -/
theorem ga_preservesS (f : Fetcher) (a c : Option Str) (sk : Bool)
    (s : GeoState) :
    PreservesS s (geocode_address f a c sk false s).2 := by
  rcases hb : build_query a c with _ | q0
  · rw [ga_eq_nobuild f a c sk false s hb]
    exact preservesS_refl s
  · have hq := corrected_not_purged q0
    rcases hget : cacheGet (load_cache s).1 (corrected q0) with _ | (_ | e)
    · cases sk
      · rcases hfs : fetchSuccess f (pyUpper (c.getD [])) (corrected q0)
            with _ | ⟨la, lb⟩
        · rw [ga_eq_miss_fetch_fail f a c false s q0 hb hget hfs, gmf_false]
          exact preservesS_write_after_reload s _ _ _ (fetch_fs _ _ _ _) hq hget
        · rw [ga_eq_miss_fetch_succ f a c false s q0 hb hget hfs]
          exact preservesS_write_after_reload s _ _ _ (fetch_fs _ _ _ _) hq hget
      · rw [ga_eq_miss_skip f a c false s q0 hb hget]
        exact preservesS_load s
    · cases sk
      · rw [ga_eq_neg_nofb f a c s q0 hb hget]
        exact preservesS_load s
      · rw [ga_eq_neg_skip f a c false s q0 hb hget]
        exact preservesS_load s
    · rw [ga_eq_hit f a c sk false s q0 e hb hget]
      exact preservesS_load s

/-- Weak preservation for every `geocode_address` call: a changed slot
outside the purge set was absent, `Negative`, or non-truthy. -/
theorem ga_preserves (f : Fetcher) (a c : Option Str) (sk b : Bool)
    (s : GeoState) :
    Preserves s (geocode_address f a c sk b s).2 := by
  cases b
  case false => exact (ga_preservesS f a c sk s).toPreserves
  case true =>
  rcases hb : build_query a c with _ | q0
  · rw [ga_eq_nobuild f a c sk true s hb]
    exact preserves_refl s
  · have hq := corrected_not_purged q0
    rcases hget : cacheGet (load_cache s).1 (corrected q0) with _ | (_ | e)
    · cases sk
      · rcases hfs : fetchSuccess f (pyUpper (c.getD [])) (corrected q0)
            with _ | ⟨la, lb⟩
        · rw [ga_eq_miss_fetch_fail f a c true s q0 hb hget hfs]
          rcases hfx : firstSuccess f (pyUpper (c.getD []))
              (fallback_queries (corrected q0)) with _ | ⟨la, lb⟩
          · rw [gmf_true_fail _ _ _ _ hfx]
            refine (preservesS_write_after_reload s _ _ _ ?_ hq hget).toPreserves
            rw [tryFallbacksMiss_fail_fs _ _ _ _ hfx, fetch_fs]
          · rw [gmf_true_succ _ _ _ _ hfx]
            exact (preserves_tryMiss_succ s _ f _ _ (fetch_fs _ _ _ _)
              hq hget hfx).toPreserves
        · rw [ga_eq_miss_fetch_succ f a c true s q0 hb hget hfs]
          exact (preservesS_write_after_reload s _ _ _
            (fetch_fs _ _ _ _) hq hget).toPreserves
      · rw [ga_eq_miss_skip f a c true s q0 hb hget]
        exact (preservesS_load s).toPreserves
    · cases sk
      · rw [ga_eq_neg_fb f a c s q0 hb hget]
        rcases hfx : firstSuccess f (pyUpper (c.getD []))
            (fallback_queries (corrected q0)) with _ | ⟨la, lb⟩
        · exact (preservesS_fs_link
            (tryFallbacksNeg_fail_fs _ _ _ _ _ hfx _)).toPreserves
        · exact preserves_neg_upgrade s (corrected q0) _ _
            (tryFallbacksNeg_succ_fs _ _ _ _ _ hfx _) hq hget
      · rw [ga_eq_neg_skip f a c true s q0 hb hget]
        exact (preservesS_load s).toPreserves
    · rw [ga_eq_hit f a c sk true s q0 e hb hget]
      exact (preservesS_load s).toPreserves

/-! ## Venue resolution preserves the cache discipline -/

theorem cacheHitResult_none {e : Entry} (h : cacheHitResult e = none) :
    e.truthy = false := by
  rcases e with ⟨_ | la, _ | lb⟩
  · rfl
  · rfl
  · simp [Entry.truthy, optTruthy]
  · unfold cacheHitResult at h
    dsimp only at h
    by_cases hc : (la.truthy && lb.truthy) = true
    · rw [if_pos hc] at h
      cases h
    · unfold Entry.truthy optTruthy
      dsimp only
      exact Bool.not_eq_true _ ▸ hc

/-- A failed fully-enabled call leaves a present, non-truthy slot under
its corrected query. -/
theorem ga_none_slot (f : Fetcher) (a c : Option Str) (s : GeoState)
    (q0 : Str) (hb : build_query a c = some q0)
    (hr : (geocode_address f a c false true s).1 = none) :
    ∃ w, fileLookup (geocode_address f a c false true s).2 (corrected q0) =
        some w ∧ weakSlot (some w) = true := by
  rcases ga_post f a c true s q0 hb with ⟨e, he, hw⟩ | ⟨_, hw, _⟩
  · refine ⟨some e, hw, ?_⟩
    rw [he] at hr
    show (!e.truthy) = true
    rw [cacheHitResult_none hr]
    rfl
  · exact ⟨none, hw, rfl⟩

theorem venueLoop_step_nokey (f : Fetcher) (cc : Str) (ok : Option Str)
    {fb : Str} (rest : List Str) (s : GeoState)
    (hbq : build_query (some fb) (some cc) = none) :
    venueLoop f cc ok (fb :: rest) s = venueLoop f cc ok rest s := by
  simp only [venueLoop]
  rw [hbq]

theorem venueLoop_step_skip (f : Fetcher) (cc : Str) (ok : Option Str)
    {fb fk : Str} (rest : List Str) (s : GeoState)
    (hbq : build_query (some fb) (some cc) = some fk) (heq : some fk = ok) :
    venueLoop f cc ok (fb :: rest) s = venueLoop f cc ok rest s := by
  simp only [venueLoop]
  rw [hbq]
  dsimp only
  rw [if_pos heq]

theorem venueLoop_step_fail (f : Fetcher) (cc : Str) (ok : Option Str)
    {fb fk : Str} (rest : List Str) (s : GeoState)
    (hbq : build_query (some fb) (some cc) = some fk) (hne : ¬ some fk = ok)
    (hres : (geocode_address f (some fb) (some cc) false false s).1 = none) :
    venueLoop f cc ok (fb :: rest) s =
      venueLoop f cc ok rest
        (geocode_address f (some fb) (some cc) false false s).2 := by
  simp only [venueLoop]
  rw [hbq]
  dsimp only
  rw [if_neg hne, hres]

theorem venueLoop_step_succ (f : Fetcher) (cc : Str) (ok : Option Str)
    {fb fk : Str} (rest : List Str) (s : GeoState) {v : PyVal × PyVal}
    (hbq : build_query (some fb) (some cc) = some fk) (hne : ¬ some fk = ok)
    (hres : (geocode_address f (some fb) (some cc) false false s).1 = some v) :
    venueLoop f cc ok (fb :: rest) s =
      (some v, venueWrite ok v
        (geocode_address f (some fb) (some cc) false false s).2) := by
  simp only [venueLoop]
  rw [hbq]
  dsimp only
  rw [if_neg hne, hres]

theorem preserves_venue_write (s s_in : GeoState) (k0 : Str) (v : PyVal × PyVal)
    (hpre : Preserves s s_in)
    (hk0 : k0 ∉ KEYS_TO_PURGE_FROM_CACHE → weakSlot (fileLookup s k0) = true) :
    Preserves s (venueWrite (some k0) v s_in) := by
  unfold venueWrite
  dsimp only
  by_cases hke : k0.isEmpty = true
  · rw [if_pos hke]
    exact hpre
  · rw [if_neg hke]
    intro k hk hne
    by_cases hkq : k = k0
    · subst hkq
      exact hk0 hk
    · rw [fileLookup_save, cacheGet_set_ne _ k0 k _ hkq, fileLookup_load] at hne
      by_cases he2 : fileLookup (load_cache s_in).2 k = fileLookup s_in k
      · rw [he2] at hne
        exact hpre k hk hne
      · have hn : fileLookup s_in k = none := fileLookup_load_change s_in k hk he2
        by_cases he3 : fileLookup s_in k = fileLookup s k
        · rw [← he3, hn]
          rfl
        · exact hpre k hk he3

theorem venueLoop_preserves (f : Fetcher) (cc : Str) (ok : Option Str)
    (s0 : GeoState)
    (h0 : ∀ k0, ok = some k0 → k0 ∉ KEYS_TO_PURGE_FROM_CACHE →
      weakSlot (fileLookup s0 k0) = true) :
    ∀ (fbs : List Str) (s : GeoState), Preserves s0 s →
      Preserves s0 (venueLoop f cc ok fbs s).2 := by
  intro fbs
  induction fbs with
  | nil => intro s hp; exact hp
  | cons fb rest ih =>
      intro s hp
      rcases hbq : build_query (some fb) (some cc) with _ | fk
      · rw [venueLoop_step_nokey f cc ok rest s hbq]
        exact ih s hp
      · by_cases heq : some fk = ok
        · rw [venueLoop_step_skip f cc ok rest s hbq heq]
          exact ih s hp
        · have hstep : Preserves s0
              (geocode_address f (some fb) (some cc) false false s).2 :=
            hp.chainP (ga_preservesS f (some fb) (some cc) false s).toPreserves
          rcases hres : (geocode_address f (some fb) (some cc) false false s).1
              with _ | v
          · rw [venueLoop_step_fail f cc ok rest s hbq heq hres]
            exact ih _ hstep
          · rw [venueLoop_step_succ f cc ok rest s hbq heq hres]
            rcases ok with _ | k0
            · exact hstep
            · exact preserves_venue_write s0 _ k0 v hstep
                (fun hk => h0 k0 rfl hk)

theorem gel_preserves (f : Fetcher) (evFbs : Str → Str → List Str)
    (loc : Option Str) (cc : Str) (sk : Bool) (s : GeoState) :
    Preserves s (geocode_event_location f evFbs loc cc sk s).2 := by
  unfold geocode_event_location
  dsimp only
  by_cases ha : (normalizeOptLoc loc).isEmpty = true
  · rw [if_pos ha]
    exact preserves_refl s
  · rw [if_neg ha]
    rcases hres : (geocode_address f (some (normalizeOptLoc loc))
        (some cc) sk true s).1 with _ | v
    · cases sk
      · dsimp only
        refine venueLoop_preserves f cc _ s ?_ _ _
          (ga_preserves f (some (normalizeOptLoc loc)) (some cc) false true s)
        intro k0 hok hk0
        have hcq : corrected k0 = k0 := not_corrected_of_not_purged k0 hk0
        obtain ⟨w, hw, hweak⟩ :=
          ga_none_slot f (some (normalizeOptLoc loc)) (some cc) s k0 hok hres
        rw [hcq] at hw
        by_cases he : fileLookup (geocode_address f (some (normalizeOptLoc loc))
            (some cc) false true s).2 k0 = fileLookup s k0
        · rw [he] at hw
          rw [hw]
          exact hweak
        · exact ga_preserves f _ (some cc) false true s k0 hk0 he
      · dsimp only
        exact ga_preserves f _ (some cc) true true s
    · dsimp only
      exact ga_preserves f _ (some cc) sk true s

theorem runOp_preserves (s : GeoState) (op : Op) : Preserves s (runOp s op) := by
  cases op with
  | resolve f a c sk fb => exact ga_preserves f a c sk fb s
  | venueResolve f g l c sk => exact gel_preserves f g l c sk s

theorem runOps_preserves (ops : List Op) : ∀ s : GeoState,
    Preserves s (runOps s ops) := by
  induction ops with
  | nil => intro s; exact preserves_refl s
  | cons op rest ih =>
      intro s
      exact (runOp_preserves s op).chainP (ih (runOp s op))

/-! ## Clock evolution of geocode_address -/

theorem evolves_save (c : Cache) (s : GeoState) : Evolves s (save_cache c s) 0 :=
  Evolves.same s _ rfl rfl rfl

theorem evolves_load (s : GeoState) : Evolves s (load_cache s).2 0 :=
  Evolves.same s _ rfl rfl rfl

theorem evolves_tryNeg (f : Fetcher) (cc q : Str) (cache : Cache)
    (fbs : List Str) : ∀ s : GeoState,
    ∃ n, Evolves s (tryFallbacksNeg f cc q cache fbs s).2 n := by
  induction fbs with
  | nil => intro s; exact ⟨0, evolves_refl s⟩
  | cons fb rest ih =>
      intro s
      rcases hfs : fetchSuccess f cc fb with _ | ⟨a, b⟩
      · rw [tryNeg_step_fail q cache rest s hfs]
        obtain ⟨n, hn⟩ := ih (fetch_nominatim f fb cc s).2
        exact ⟨1 + n, (evolves_fetch f fb cc s).chain hn⟩
      · rw [tryNeg_step_succ q cache rest s hfs]
        exact ⟨1 + 0, (evolves_fetch f fb cc s).chain (evolves_save _ _)⟩

theorem evolves_tryMiss (f : Fetcher) (cc q : Str)
    (fbs : List Str) : ∀ s : GeoState,
    ∃ n, Evolves s (tryFallbacksMiss f cc q fbs s).2 n := by
  induction fbs with
  | nil => intro s; exact ⟨0, evolves_refl s⟩
  | cons fb rest ih =>
      intro s
      rcases hfs : fetchSuccess f cc fb with _ | ⟨a, b⟩
      · rw [tryMiss_step_fail q rest s hfs]
        obtain ⟨n, hn⟩ := ih (fetch_nominatim f fb cc s).2
        exact ⟨1 + n, (evolves_fetch f fb cc s).chain hn⟩
      · rw [tryMiss_step_succ q rest s hfs]
        exact ⟨1 + (0 + 0), (evolves_fetch f fb cc s).chain
          ((evolves_load _).chain (evolves_save _ _))⟩

theorem evolves_gmf (f : Fetcher) (cc q : Str) (b : Bool) (s : GeoState) :
    ∃ n, Evolves s (geocodeMissFail f cc q b s).2 n := by
  cases b
  · rw [gmf_false]
    exact ⟨0 + 0, (evolves_load s).chain (evolves_save _ _)⟩
  · rcases hfx : firstSuccess f cc (fallback_queries q) with _ | ⟨a, b2⟩
    · rw [gmf_true_fail f cc q s hfx]
      obtain ⟨n, hn⟩ := evolves_tryMiss f cc q (fallback_queries q) s
      exact ⟨n + (0 + 0), hn.chain ((evolves_load _).chain (evolves_save _ _))⟩
    · rw [gmf_true_succ f cc q s hfx]
      exact evolves_tryMiss f cc q (fallback_queries q) s

theorem evolves_ga (f : Fetcher) (a c : Option Str) (sk b : Bool)
    (s : GeoState) :
    ∃ n, Evolves s (geocode_address f a c sk b s).2 n := by
  rcases hb : build_query a c with _ | q0
  · rw [ga_eq_nobuild f a c sk b s hb]
    exact ⟨0, evolves_refl s⟩
  · rcases hget : cacheGet (load_cache s).1 (corrected q0) with _ | (_ | e)
    · cases sk
      · rcases hfs : fetchSuccess f (pyUpper (c.getD [])) (corrected q0)
            with _ | ⟨la, lb⟩
        · rw [ga_eq_miss_fetch_fail f a c b s q0 hb hget hfs]
          obtain ⟨n, hn⟩ := evolves_gmf f (pyUpper (c.getD [])) (corrected q0) b
            (fetch_nominatim f (corrected q0) (pyUpper (c.getD []))
              (load_cache s).2).2
          exact ⟨0 + (1 + n), (evolves_load s).chain
            ((evolves_fetch _ _ _ _).chain hn)⟩
        · rw [ga_eq_miss_fetch_succ f a c b s q0 hb hget hfs]
          exact ⟨0 + (1 + (0 + 0)), (evolves_load s).chain
            ((evolves_fetch _ _ _ _).chain
              ((evolves_load _).chain (evolves_save _ _)))⟩
      · rw [ga_eq_miss_skip f a c b s q0 hb hget]
        exact ⟨0, evolves_load s⟩
    · cases sk
      · cases b
        · rw [ga_eq_neg_nofb f a c s q0 hb hget]
          exact ⟨0, evolves_load s⟩
        · rw [ga_eq_neg_fb f a c s q0 hb hget]
          obtain ⟨n, hn⟩ := evolves_tryNeg f (pyUpper (c.getD []))
            (corrected q0) (load_cache s).1
            (fallback_queries (corrected q0)) (load_cache s).2
          exact ⟨0 + n, (evolves_load s).chain hn⟩
      · rw [ga_eq_neg_skip f a c b s q0 hb hget]
        exact ⟨0, evolves_load s⟩
    · rw [ga_eq_hit f a c sk b s q0 e hb hget]
      exact ⟨0, evolves_load s⟩

/-- Three consecutive `geocode_address` calls that each issue at least
one provider request take at least two rate-limit intervals of
wall-clock time. -/
theorem three_calls_rate_limited (f1 f2 f3 : Fetcher)
    (a1 a2 a3 c1 c2 c3 : Option Str) (b1 b2 b3 : Bool) (s0 : GeoState)
    (h1 : s0.fetchLog.length <
      (geocode_address f1 a1 c1 false b1 s0).2.fetchLog.length)
    (h2 : (geocode_address f1 a1 c1 false b1 s0).2.fetchLog.length <
      (geocode_address f2 a2 c2 false b2
        (geocode_address f1 a1 c1 false b1 s0).2).2.fetchLog.length)
    (h3 : (geocode_address f2 a2 c2 false b2
        (geocode_address f1 a1 c1 false b1 s0).2).2.fetchLog.length <
      (geocode_address f3 a3 c3 false b3
        (geocode_address f2 a2 c2 false b2
          (geocode_address f1 a1 c1 false b1 s0).2).2).2.fetchLog.length) :
    s0.now + 2 * RATE_LIMIT_SEC ≤
      (geocode_address f3 a3 c3 false b3
        (geocode_address f2 a2 c2 false b2
          (geocode_address f1 a1 c1 false b1 s0).2).2).2.now := by
  obtain ⟨n1, e1⟩ := evolves_ga f1 a1 c1 false b1 s0
  obtain ⟨n2, e2⟩ := evolves_ga f2 a2 c2 false b2
    (geocode_address f1 a1 c1 false b1 s0).2
  obtain ⟨n3, e3⟩ := evolves_ga f3 a3 c3 false b3
    (geocode_address f2 a2 c2 false b2
      (geocode_address f1 a1 c1 false b1 s0).2).2
  have hn1 : 1 ≤ n1 := by
    have := e1.log_len
    omega
  have hn2 : 1 ≤ n2 := by
    have := e2.log_len
    omega
  have hn3 : 1 ≤ n3 := by
    have := e3.log_len
    omega
  have hR : (0 : ℚ) < RATE_LIMIT_SEC := by norm_num [RATE_LIMIT_SEC]
  obtain ⟨p1now, _⟩ := e1.pos_eq hn1
  obtain ⟨p2now, _⟩ := e2.pos_eq hn2
  obtain ⟨p3now, _⟩ := e3.pos_eq hn3
  have g2 := e2.last_ge
  have g3 := e3.last_ge
  have m1 := e1.now_ge
  have hn2q : (1 : ℚ) ≤ (n2 : ℚ) := by exact_mod_cast hn2
  have hn3q : (1 : ℚ) ≤ (n3 : ℚ) := by exact_mod_cast hn3
  nlinarith [g2, g3, m1, p1now, p2now, p3now, hn2q, hn3q, hR]

/-! ## Fallback-generator string invariants -/

theorem splitWsAux_covers (ch : Char) (hw : ch.isWhitespace = false) :
    ∀ (l acc : Str), ch ∈ l ∨ ch ∈ acc →
      ∃ t ∈ splitWsAux l acc, ch ∈ t := by
  intro l
  induction l with
  | nil =>
      intro acc hmem
      rcases hmem with hm | hm
      · cases hm
      · exact ⟨acc.reverse, List.mem_singleton.mpr rfl, List.mem_reverse.mpr hm⟩
  | cons c rest ih =>
      intro acc hmem
      by_cases hcw : c.isWhitespace = true
      · show ∃ t ∈ (if c.isWhitespace = true then acc.reverse :: splitWsAux rest []
          else splitWsAux rest (c :: acc)), ch ∈ t
        rw [if_pos hcw]
        rcases hmem with hm | hm
        · rcases List.mem_cons.mp hm with he | hm2
          · subst he
            rw [hcw] at hw
            cases hw
          · obtain ⟨t, ht, hct⟩ := ih [] (.inl hm2)
            exact ⟨t, List.mem_cons_of_mem _ ht, hct⟩
        · exact ⟨acc.reverse, List.mem_cons_self _ _, List.mem_reverse.mpr hm⟩
      · show ∃ t ∈ (if c.isWhitespace = true then acc.reverse :: splitWsAux rest []
          else splitWsAux rest (c :: acc)), ch ∈ t
        rw [if_neg hcw]
        apply ih (c :: acc)
        rcases hmem with hm | hm
        · rcases List.mem_cons.mp hm with he | hm2
          · subst he
            exact .inr (List.mem_cons_self _ _)
          · exact .inl hm2
        · exact .inr (List.mem_cons_of_mem _ hm)

theorem tokensOf_covers {ch : Char} {s : Str} (hw : ch.isWhitespace = false)
    (hmem : ch ∈ s) : ∃ t ∈ tokensOf s, ch ∈ t := by
  obtain ⟨t, ht, hct⟩ := splitWsAux_covers ch hw s [] (.inl hmem)
  refine ⟨t, List.mem_filter.mpr ⟨ht, ?_⟩, hct⟩
  rcases t with _ | ⟨c2, t2⟩
  · cases hct
  · rfl

/-- A string containing a comma is never a single purely-numeric
token. -/
theorem singleTokenNumeric_of_comma {s : Str} (h : ',' ∈ s) :
    singleTokenNumeric s = false := by
  unfold singleTokenNumeric
  obtain ⟨t, ht, hct⟩ := @tokensOf_covers ',' s (by decide) h
  rcases hto : tokensOf s with _ | ⟨t1, rest⟩
  · rfl
  · rcases rest with _ | _
    · rw [hto] at ht
      rcases List.mem_singleton.mp ht
      by_cases hall : t.all Char.isDigit = true
      · rw [List.all_eq_true] at hall
        have := hall ',' hct
        cases this
      · exact Bool.not_eq_true _ ▸ hall
    · rfl

theorem comma_mem_joinCS (l : List Str) (h : 2 ≤ l.length) :
    ',' ∈ joinCS l := by
  rcases l with _ | ⟨x, _ | ⟨y, rest⟩⟩
  · cases h
  · cases h with
    | step h2 => cases h2
  · show ',' ∈ x ++ str ", " ++ joinCS (y :: rest)
    rw [List.mem_append]
    left
    rw [List.mem_append]
    right
    exact List.mem_cons_self _ _

/-- Every candidate the generic fallback generator emits contains a
comma. -/
theorem fallback_queries_comma {q e : Str} (h : e ∈ fallback_queries q) :
    ',' ∈ e := by
  unfold fallback_queries at h
  by_cases h0 : (q.isEmpty || decide ((splitCS q []).length < 2)) = true
  · rw [if_pos h0] at h
    cases h
  · rw [if_neg h0] at h
    dsimp only at h
    by_cases h1 : ((splitCS q []).map pyStrip).length < 2
    · rw [if_pos h1] at h
      cases h
    · rw [if_neg h1] at h
      have hm := (List.mem_filter.mp h).1
      rw [List.mem_append] at hm
      rcases hm with hm | hm4
      · rw [List.mem_append] at hm
        rcases hm with hm | hm3
        · rw [List.mem_append] at hm
          rcases hm with hm1 | hm2
          · by_cases h4 : ((splitCS q []).map pyStrip).length ≥ 4
            · rw [if_pos h4] at hm1
              obtain rfl := List.mem_singleton.mp hm1
              exact comma_mem_joinCS _ (by simp)
            · rw [if_neg h4] at hm1
              cases hm1
          · by_cases h3 : ((splitCS q []).map pyStrip).length ≥ 3
            · rw [if_pos h3] at hm2
              obtain rfl := List.mem_singleton.mp hm2
              apply comma_mem_joinCS
              rw [List.length_drop]
              omega
            · rw [if_neg h3] at hm2
              cases hm2
        · by_cases h2 : ((splitCS q []).map pyStrip).length ≥ 2
          · rw [if_pos h2] at hm3
            obtain rfl := List.mem_singleton.mp hm3
            apply comma_mem_joinCS
            rw [List.length_drop]
            omega
          · rw [if_neg h2] at hm3
            cases hm3
      · by_cases h3 : ((splitCS q []).map pyStrip).length ≥ 3
        · rw [if_pos h3] at hm4
          by_cases h5 : (!(stripStreetNumber (((splitCS q []).map pyStrip).getD 0 [])).isEmpty &&
              decide (stripStreetNumber (((splitCS q []).map pyStrip).getD 0 []) ≠
                ((splitCS q []).map pyStrip).getD 0 [])) = true
          · rw [if_pos h5] at hm4
            obtain rfl := List.mem_singleton.mp hm4
            rw [List.mem_append]
            left
            rw [List.mem_append]
            right
            exact List.mem_cons_self _ _
          · rw [if_neg h5] at hm4
            cases hm4
        · rw [if_neg h3] at hm4
          cases hm4

/-- The generic fallback generator never emits the original query. -/
theorem fallback_not_mem_self (q : Str) : q ∉ fallback_queries q := by
  intro h
  unfold fallback_queries at h
  by_cases h0 : (q.isEmpty || decide ((splitCS q []).length < 2)) = true
  · rw [if_pos h0] at h
    cases h
  · rw [if_neg h0] at h
    dsimp only at h
    by_cases h1 : ((splitCS q []).map pyStrip).length < 2
    · rw [if_pos h1] at h
      cases h
    · rw [if_neg h1] at h
      have hp := (List.mem_filter.mp h).2
      rw [Bool.and_eq_true, decide_eq_true_eq] at hp
      exact hp.2 rfl

/-! ## Characterization of build_query -/

theorem build_query_addr (a : Option Str) :
    (match a with
      | some x => if x.isEmpty = true then [] else pyStrip x
      | none => ([] : Str)) = pyStrip (a.getD []) := by
  rcases a with _ | x
  · rfl
  · dsimp only [Option.getD]
    by_cases hx : x.isEmpty = true
    · rw [if_pos hx]
      rw [List.isEmpty_iff] at hx
      rw [hx]
      rfl
    · rw [if_neg hx]

theorem build_query_none_iff (a c : Option Str) :
    build_query a c = none ↔
      ((c.getD []).length ≠ 2 ∨ pyStrip (a.getD []) = []) := by
  unfold build_query
  dsimp only
  have hlen : (pyUpper (c.getD [])).length = (c.getD []).length :=
    List.length_map _ _
  by_cases hc : ((pyUpper (c.getD [])).isEmpty ||
      (pyUpper (c.getD [])).length != 2) = true
  · rw [if_pos hc]
    simp only [true_iff]
    left
    rw [Bool.or_eq_true] at hc
    rcases hc with hc | hc
    · rw [List.isEmpty_iff] at hc
      rw [← hlen, hc]
      decide
    · rw [bne_iff_ne] at hc
      rw [← hlen]
      exact hc
  · rw [if_neg hc]
    rw [Bool.or_eq_true] at hc
    push_neg at hc
    have hc2 : (c.getD []).length = 2 := by
      have h2 : ((pyUpper (c.getD [])).length != 2) = false :=
        Bool.eq_false_iff.mpr hc.2
      rw [bne_eq_false_iff_eq] at h2
      rw [← hlen]
      exact h2
    rw [build_query_addr a]
    by_cases hq : (pyStrip (a.getD [])).isEmpty = true
    · rw [if_pos hq]
      simp only [true_iff]
      right
      exact List.isEmpty_iff.mp hq
    · rw [if_neg hq]
      constructor
      · intro hcontra
        by_cases hsuf : (((lookupK COUNTRY_NAMES (pyUpper (c.getD []))).getD
            (pyUpper (c.getD []))).isSuffixOf (pyStrip (a.getD []))) = true
        · rw [if_pos hsuf] at hcontra
          cases hcontra
        · rw [if_neg hsuf] at hcontra
          cases hcontra
      · intro hr
        rcases hr with hr | hr
        · exact absurd hc2 hr
        · rw [hr] at hq
          exact absurd rfl hq

theorem build_query_some_ne_nil (a c : Option Str) (q : Str)
    (h : build_query a c = some q) : q ≠ [] := by
  unfold build_query at h
  dsimp only at h
  by_cases hc : ((pyUpper (c.getD [])).isEmpty ||
      (pyUpper (c.getD [])).length != 2) = true
  · rw [if_pos hc] at h
    cases h
  · rw [if_neg hc] at h
    rw [build_query_addr a] at h
    by_cases hq : (pyStrip (a.getD [])).isEmpty = true
    · rw [if_pos hq] at h
      cases h
    · rw [if_neg hq] at h
      by_cases hsuf : (((lookupK COUNTRY_NAMES (pyUpper (c.getD []))).getD
          (pyUpper (c.getD []))).isSuffixOf (pyStrip (a.getD []))) = true
      · rw [if_pos hsuf] at h
        cases h
        intro he
        apply hq
        rw [he]
        rfl
      · rw [if_neg hsuf] at h
        cases h
        intro he
        apply hq
        have hnil : pyStrip (a.getD []) = [] := by
          rcases hstrip : pyStrip (a.getD []) with _ | ⟨ch, t⟩
          · rfl
          · rw [hstrip] at he
            simp at he
        rw [hnil]
        rfl

/-! ## Degenerate-entry hit -/

theorem cacheHitResult_not_truthy {e : Entry} (h : e.truthy = false) :
    cacheHitResult e = none := by
  rcases e with ⟨_ | la, _ | lb⟩
  · rfl
  · rfl
  · rfl
  · unfold cacheHitResult
    dsimp only
    simp only [Entry.truthy, optTruthy] at h
    rw [if_neg (fun hx => by rw [hx] at h; cases h)]

/-! ## Rate-limit facts of a single fetch -/

theorem fetch_sleep_exact (f : Fetcher) (q cc : Str) (s : GeoState)
    (h : s.now - s.lastReq < RATE_LIMIT_SEC) :
    (fetch_nominatim f q cc s).2.now =
      s.now + (RATE_LIMIT_SEC - (s.now - s.lastReq)) := by
  rw [fetch_snd]
  show fetchTime s = _
  unfold fetchTime
  rw [if_pos h]

theorem fetch_gap (f : Fetcher) (q cc : Str) (s : GeoState) :
    (fetch_nominatim f q cc s).2.fetchLog =
      (q, (fetch_nominatim f q cc s).2.lastReq) :: s.fetchLog ∧
    s.lastReq + RATE_LIMIT_SEC ≤ (fetch_nominatim f q cc s).2.lastReq := by
  rw [fetch_snd]
  refine ⟨rfl, ?_⟩
  show s.lastReq + RATE_LIMIT_SEC ≤ fetchTime s
  unfold fetchTime
  by_cases h : s.now - s.lastReq < RATE_LIMIT_SEC
  · rw [if_pos h]
    linarith
  · rw [if_neg h]
    push_neg at h
    linarith

/-! ## Claims -/

/-- C1 (amended): for every fetcher, (address, country) pair, fallback
flag and starting state, calling `geocode_address` twice in sequence
with `skip_api = false` yields the same coordinate both times; and
whenever the first call produced a coordinate, the second call issues
no provider request, because it is answered from the cache.  (The
original claim's unconditional "no external fetch on the second call"
fails when the first call ends `Negative`: see the counterexample,
where the second call retries the fallback fetches.) -/
theorem claim_C1_resolve_idempotent_amended (f : Fetcher) (a c : Option Str)
    (b : Bool) (s : GeoState) :
    (geocode_address f a c false b ((geocode_address f a c false b s).2)).1 =
      (geocode_address f a c false b s).1 ∧
    (∀ v, (geocode_address f a c false b s).1 = some v →
      (geocode_address f a c false b
          ((geocode_address f a c false b s).2)).2.fetchLog =
        (geocode_address f a c false b s).2.fetchLog) :=
  ga_idempotent f a c b s

/-- C1 counterexample: with an everywhere-failing fetcher and address
`"A, B"` (country HR) on an empty cache, the first `skip_api = false`
call issues two requests and records `Negative`; the second identical
call is *not* answered without an external fetch — it re-tries the
fallback candidate and the request log grows from 2 to 3 entries. -/
theorem claim_C1_counterexample :
    (geocode_address (fun _ _ => (none, none)) (some (str "A, B"))
        (some (str "HR")) false true
        { fs := { legacy := none, cacheFile := .missing },
          now := 0, lastReq := 0, fetchLog := [] }).2.fetchLog.length = 2 ∧
    (geocode_address (fun _ _ => (none, none)) (some (str "A, B"))
        (some (str "HR")) false true
        ((geocode_address (fun _ _ => (none, none)) (some (str "A, B"))
            (some (str "HR")) false true
            { fs := { legacy := none, cacheFile := .missing },
              now := 0, lastReq := 0, fetchLog := [] }).2)).2.fetchLog.length = 3 := by
  constructor
  · decide
  · decide

/-- C1 witness: at a concrete succeeding fetcher the two calls agree
and the second call's request log is unchanged. -/
theorem claim_C1_witness :
    ((geocode_address (fun _ _ => (some (str "43.1"), some (str "16.2")))
        (some (str "Aaa")) (some (str "HR")) false true
        ((geocode_address (fun _ _ => (some (str "43.1"), some (str "16.2")))
            (some (str "Aaa")) (some (str "HR")) false true
            { fs := { legacy := none, cacheFile := .missing },
              now := 0, lastReq := 0, fetchLog := [] }).2)).1 =
      (geocode_address (fun _ _ => (some (str "43.1"), some (str "16.2")))
        (some (str "Aaa")) (some (str "HR")) false true
        { fs := { legacy := none, cacheFile := .missing },
          now := 0, lastReq := 0, fetchLog := [] }).1) ∧
    ((geocode_address (fun _ _ => (some (str "43.1"), some (str "16.2")))
        (some (str "Aaa")) (some (str "HR")) false true
        ((geocode_address (fun _ _ => (some (str "43.1"), some (str "16.2")))
            (some (str "Aaa")) (some (str "HR")) false true
            { fs := { legacy := none, cacheFile := .missing },
              now := 0, lastReq := 0, fetchLog := [] }).2)).2.fetchLog =
      (geocode_address (fun _ _ => (some (str "43.1"), some (str "16.2")))
        (some (str "Aaa")) (some (str "HR")) false true
        { fs := { legacy := none, cacheFile := .missing },
          now := 0, lastReq := 0, fetchLog := [] }).2.fetchLog) :=
  ⟨(claim_C1_resolve_idempotent_amended
      (fun _ _ => (some (str "43.1"), some (str "16.2")))
      (some (str "Aaa")) (some (str "HR")) true
      { fs := { legacy := none, cacheFile := .missing },
        now := 0, lastReq := 0, fetchLog := [] }).1,
   (claim_C1_resolve_idempotent_amended
      (fun _ _ => (some (str "43.1"), some (str "16.2")))
      (some (str "Aaa")) (some (str "HR")) true
      { fs := { legacy := none, cacheFile := .missing },
        now := 0, lastReq := 0, fetchLog := [] }).2
     (.pstr (str "43.1"), .pstr (str "16.2")) (by decide)⟩

/-- C2 counterexample: address `"Neki Teren"`, country `"HR"`, cache
pre-populated with `Negative` for `"Neki Teren, Croatia"`, fetcher
succeeding exactly on `"Teren, Croatia"`, `fallbacks = true`: contrary
to the claim, the call returns no coordinate and leaves the entry
`Negative`, because the generic generator emits no candidate at all
for this two-part query. -/
theorem claim_C2_counterexample :
    (geocode_address
        (fun q _ => if q = str "Teren, Croatia"
          then (some (str "43.508"), some (str "16.44")) else (none, none))
        (some (str "Neki Teren")) (some (str "HR")) false true
        { fs := { legacy := none,
                  cacheFile := .valid [(str "Neki Teren, Croatia", none)] },
          now := 0, lastReq := 0, fetchLog := [] }).1 = none ∧
    fileLookup (geocode_address
        (fun q _ => if q = str "Teren, Croatia"
          then (some (str "43.508"), some (str "16.44")) else (none, none))
        (some (str "Neki Teren")) (some (str "HR")) false true
        { fs := { legacy := none,
                  cacheFile := .valid [(str "Neki Teren, Croatia", none)] },
          now := 0, lastReq := 0, fetchLog := [] }).2
      (str "Neki Teren, Croatia") = some none := by
  constructor
  · decide
  · decide

/-- C2 (amended): in the claimed scenario the call returns no
coordinate, issues no fetch, and leaves the state (hence the `Negative`
entry) unchanged, because `_fallback_queries "Neki Teren, Croatia"`
is empty — its only candidate, the last-two-parts join, equals the
original query and is filtered out. -/
theorem claim_C2_amended_negative_kept :
    geocode_address
        (fun q _ => if q = str "Teren, Croatia"
          then (some (str "43.508"), some (str "16.44")) else (none, none))
        (some (str "Neki Teren")) (some (str "HR")) false true
        { fs := { legacy := none,
                  cacheFile := .valid [(str "Neki Teren, Croatia", none)] },
          now := 0, lastReq := 0, fetchLog := [] } =
      (none,
       { fs := { legacy := none,
                 cacheFile := .valid [(str "Neki Teren, Croatia", none)] },
         now := 0, lastReq := 0, fetchLog := [] }) ∧
    fallback_queries (str "Neki Teren, Croatia") = [] := by
  constructor
  · decide
  · decide

/-- C3 counterexample: for the canonical query `"a, a, a, X"` the
generic fallback list is `["a, a, X", "a, a, X", "a, X"]`, which both
contains duplicates and contains a candidate of length 4, refuting the
claimed conjunction of invariants. -/
theorem claim_C3_counterexample :
    ¬ ((str "a, a, a, X") ∉ fallback_queries (str "a, a, a, X") ∧
       (fallback_queries (str "a, a, a, X")).Nodup ∧
       (∀ e ∈ fallback_queries (str "a, a, a, X"),
         singleTokenNumeric e = false) ∧
       (∀ e ∈ fallback_queries (str "a, a, a, X"), 5 ≤ e.length)) := by
  decide

/-- C3 (amended): for every canonical query, the generic fallback list
contains no element equal to the input query and no single-token
purely-numeric element (every candidate contains a comma); the list
may however contain duplicates and elements shorter than the event
generator's length-5 threshold. -/
theorem claim_C3_fallback_invariants (q : Str) :
    q ∉ fallback_queries q ∧
    ∀ e ∈ fallback_queries q, singleTokenNumeric e = false :=
  ⟨fallback_not_mem_self q,
   fun _ he => singleTokenNumeric_of_comma (fallback_queries_comma he)⟩

/-- C3 witness: the invariants at a concrete query. -/
theorem claim_C3_witness :
    (str "Ulica Pina 12a, Zagreb, Croatia") ∉
      fallback_queries (str "Ulica Pina 12a, Zagreb, Croatia") ∧
    ∀ e ∈ fallback_queries (str "Ulica Pina 12a, Zagreb, Croatia"),
      singleTokenNumeric e = false :=
  claim_C3_fallback_invariants (str "Ulica Pina 12a, Zagreb, Croatia")

/-- C4: when `skip_api` is set and the canonical query is absent from
the cache, `geocode_address` returns no coordinate, leaves the request
log unchanged (no external fetch), and leaves no cache entry for that
query in the file; a subsequent call with `skip_api` unset against a
fetcher that succeeds on the query then yields the coordinate and
persists a `Resolved` entry for it. -/
theorem claim_C4_skip_retryable (f : Fetcher) (a c : Option Str) (fb : Bool)
    (s : GeoState) (q0 : Str) {la lb : Str}
    (hb : build_query a c = some q0)
    (hget : cacheGet (load_cache s).1 (corrected q0) = none)
    (hfs : fetchSuccess f (pyUpper (c.getD [])) (corrected q0) = some (la, lb)) :
    (geocode_address f a c true fb s).1 = none ∧
    (geocode_address f a c true fb s).2.fetchLog = s.fetchLog ∧
    fileLookup (geocode_address f a c true fb s).2 (corrected q0) = none ∧
    (geocode_address f a c false fb ((geocode_address f a c true fb s).2)).1 =
      some (.pstr la, .pstr lb) ∧
    fileLookup (geocode_address f a c false fb
        ((geocode_address f a c true fb s).2)).2 (corrected q0) =
      some (some (Entry.mk (some (.pstr la)) (some (.pstr lb)))) := by
  have h1 := ga_eq_miss_skip f a c fb s q0 hb hget
  have hload := load_after_load s (load_cache s).2 rfl
  have hget2 : cacheGet (load_cache ((load_cache s).2)).1 (corrected q0) = none := by
    rw [hload.1]
    exact hget
  have h2 := ga_eq_miss_fetch_succ f a c fb ((load_cache s).2) q0 hb hget2 hfs
  rw [h1]
  dsimp only
  refine ⟨rfl, load_cache_log s, ?_, ?_, ?_⟩
  · rw [← fileLookup_load]
    exact hget
  · rw [h2]
  · rw [h2]
    dsimp only
    rw [fileLookup_save]
    exact cacheGet_set_self _ _ _

/-- C4 witness: a concrete skipped-then-retried resolution. -/
theorem claim_C4_witness :
    (geocode_address (fun _ _ => (some (str "1"), some (str "2")))
        (some (str "Aaa")) (some (str "HR")) true true
        { fs := { legacy := none, cacheFile := .missing },
          now := 0, lastReq := 0, fetchLog := [] }).1 = none ∧
    (geocode_address (fun _ _ => (some (str "1"), some (str "2")))
        (some (str "Aaa")) (some (str "HR")) true true
        { fs := { legacy := none, cacheFile := .missing },
          now := 0, lastReq := 0, fetchLog := [] }).2.fetchLog =
      ({ fs := { legacy := none, cacheFile := .missing },
         now := 0, lastReq := 0, fetchLog := [] } : GeoState).fetchLog ∧
    fileLookup (geocode_address (fun _ _ => (some (str "1"), some (str "2")))
        (some (str "Aaa")) (some (str "HR")) true true
        { fs := { legacy := none, cacheFile := .missing },
          now := 0, lastReq := 0, fetchLog := [] }).2
      (corrected (str "Aaa, Croatia")) = none ∧
    (geocode_address (fun _ _ => (some (str "1"), some (str "2")))
        (some (str "Aaa")) (some (str "HR")) false true
        ((geocode_address (fun _ _ => (some (str "1"), some (str "2")))
            (some (str "Aaa")) (some (str "HR")) true true
            { fs := { legacy := none, cacheFile := .missing },
              now := 0, lastReq := 0, fetchLog := [] }).2)).1 =
      some (.pstr (str "1"), .pstr (str "2")) ∧
    fileLookup (geocode_address (fun _ _ => (some (str "1"), some (str "2")))
        (some (str "Aaa")) (some (str "HR")) false true
        ((geocode_address (fun _ _ => (some (str "1"), some (str "2")))
            (some (str "Aaa")) (some (str "HR")) true true
            { fs := { legacy := none, cacheFile := .missing },
              now := 0, lastReq := 0, fetchLog := [] }).2)).2
      (corrected (str "Aaa, Croatia")) =
      some (some (Entry.mk (some (.pstr (str "1"))) (some (.pstr (str "2"))))) :=
  @claim_C4_skip_retryable (fun _ _ => (some (str "1"), some (str "2")))
    (some (str "Aaa")) (some (str "HR")) true
    { fs := { legacy := none, cacheFile := .missing },
      now := 0, lastReq := 0, fetchLog := [] }
    (str "Aaa, Croatia") (str "1") (str "2")
    (by decide) (by decide) (by decide)

/-- C5: after `_load_cache` returns, the loaded mapping holds no key of
`KEYS_TO_PURGE_FROM_CACHE` — neither in memory nor in the file it
leaves behind — and whenever such a key was present in a valid
persisted file, the cleaned mapping is persisted back before load
returns. -/
theorem claim_C5_purge_on_load (s : GeoState) (k : Str)
    (hk : k ∈ KEYS_TO_PURGE_FROM_CACHE) :
    (cacheGet (load_cache s).1 k = none ∧
     fileLookup (load_cache s).2 k = none) ∧
    (∀ d, s.fs.cacheFile = .valid d → anyPurgeKey d = true →
      (load_cache s).2.fs = FS.mk s.fs.legacy (.valid (purgeAll d))) := by
  have hmain : cacheGet (load_cache s).1 k = none := by
    rw [load_cache_fst]
    rcases h2 : (migrate_legacy_cache s.fs).cacheFile with _ | _ | d
    · rw [loadCacheFS_eq_missing h2]
      rfl
    · rw [loadCacheFS_eq_corrupt h2]
      rfl
    · cases hp : anyPurgeKey d
      · rw [loadCacheFS_eq_valid_nopurge h2 hp]
        dsimp only
        unfold anyPurgeKey at hp
        rw [List.any_eq_false] at hp
        have hpk := hp k hk
        rcases hcg : cacheGet d k with _ | v
        · rfl
        · rw [hcg] at hpk
          exact absurd rfl hpk
      · have hfst : (loadCacheFS s.fs).1 = purgeAll d := by
          have hc := congrArg Prod.fst (loadCacheFS_eq_valid_purge h2 hp)
          dsimp only at hc
          exact hc
        rw [hfst]
        exact cacheGet_purgeAll_of_mem d k hk
  refine ⟨⟨hmain, ?_⟩, ?_⟩
  · rw [← fileLookup_load]
    exact hmain
  · intro d hd hp
    have hm : migrate_legacy_cache s.fs = s.fs :=
      migrate_not_missing (by intro hx; rw [hd] at hx; cases hx)
    have h2 : (migrate_legacy_cache s.fs).cacheFile = .valid d := by
      rw [hm, hd]
    rw [load_cache_fs, loadCacheFS_eq_valid_purge h2 hp]
    dsimp only
    rw [hm]

/-- C5 witness: a resolved entry persisted under the stale key
`"Velika dvorana, Croatia"` is gone after the next load, and the
cleaned mapping was written back. -/
theorem claim_C5_witness :
    (cacheGet (load_cache
        { fs := { legacy := none,
                  cacheFile := .valid [(str "Velika dvorana, Croatia",
                    some (Entry.mk (some (.pstr (str "1")))
                      (some (.pstr (str "2")))))] },
          now := 0, lastReq := 0, fetchLog := [] }).1
        (str "Velika dvorana, Croatia") = none ∧
     fileLookup (load_cache
        { fs := { legacy := none,
                  cacheFile := .valid [(str "Velika dvorana, Croatia",
                    some (Entry.mk (some (.pstr (str "1")))
                      (some (.pstr (str "2")))))] },
          now := 0, lastReq := 0, fetchLog := [] }).2
        (str "Velika dvorana, Croatia") = none) ∧
    (∀ d, ({ fs := { legacy := none,
                     cacheFile := .valid [(str "Velika dvorana, Croatia",
                       some (Entry.mk (some (.pstr (str "1")))
                         (some (.pstr (str "2")))))] },
             now := 0, lastReq := 0, fetchLog := [] } : GeoState).fs.cacheFile =
          .valid d →
      anyPurgeKey d = true →
      (load_cache
        { fs := { legacy := none,
                  cacheFile := .valid [(str "Velika dvorana, Croatia",
                    some (Entry.mk (some (.pstr (str "1")))
                      (some (.pstr (str "2")))))] },
          now := 0, lastReq := 0, fetchLog := [] }).2.fs =
        FS.mk ({ fs := { legacy := none,
                         cacheFile := .valid [(str "Velika dvorana, Croatia",
                           some (Entry.mk (some (.pstr (str "1")))
                             (some (.pstr (str "2")))))] },
                 now := 0, lastReq := 0,
                 fetchLog := [] } : GeoState).fs.legacy
          (.valid (purgeAll d))) :=
  claim_C5_purge_on_load
    { fs := { legacy := none,
              cacheFile := .valid [(str "Velika dvorana, Croatia",
                some (Entry.mk (some (.pstr (str "1")))
                  (some (.pstr (str "2")))))] },
      now := 0, lastReq := 0, fetchLog := [] }
    (str "Velika dvorana, Croatia") (by decide)

/-- C6: a provider request arriving before `RATE_LIMIT_SEC` has
elapsed since the previous one sleeps for exactly the remaining time;
every request leaves at least `RATE_LIMIT_SEC` between the previous
request timestamp and its own; and three consecutive `geocode_address`
calls that each issue at least one request take at least
`2 * RATE_LIMIT_SEC` of wall-clock time end-to-end. -/
theorem claim_C6_rate_limit (f1 f2 f3 : Fetcher) (a1 a2 a3 c1 c2 c3 : Option Str)
    (b1 b2 b3 : Bool) (s0 : GeoState)
    (h1 : s0.fetchLog.length <
      (geocode_address f1 a1 c1 false b1 s0).2.fetchLog.length)
    (h2 : (geocode_address f1 a1 c1 false b1 s0).2.fetchLog.length <
      (geocode_address f2 a2 c2 false b2
        (geocode_address f1 a1 c1 false b1 s0).2).2.fetchLog.length)
    (h3 : (geocode_address f2 a2 c2 false b2
        (geocode_address f1 a1 c1 false b1 s0).2).2.fetchLog.length <
      (geocode_address f3 a3 c3 false b3
        (geocode_address f2 a2 c2 false b2
          (geocode_address f1 a1 c1 false b1 s0).2).2).2.fetchLog.length) :
    (∀ (f : Fetcher) (q cc : Str) (s : GeoState),
        s.now - s.lastReq < RATE_LIMIT_SEC →
        (fetch_nominatim f q cc s).2.now =
          s.now + (RATE_LIMIT_SEC - (s.now - s.lastReq))) ∧
    (∀ (f : Fetcher) (q cc : Str) (s : GeoState),
        s.lastReq + RATE_LIMIT_SEC ≤ (fetch_nominatim f q cc s).2.lastReq) ∧
    s0.now + 2 * RATE_LIMIT_SEC ≤
      (geocode_address f3 a3 c3 false b3
        (geocode_address f2 a2 c2 false b2
          (geocode_address f1 a1 c1 false b1 s0).2).2).2.now :=
  ⟨fetch_sleep_exact,
   fun f q cc s => (fetch_gap f q cc s).2,
   three_calls_rate_limited f1 f2 f3 a1 a2 a3 c1 c2 c3 b1 b2 b3 s0 h1 h2 h3⟩

/-- C6 witness: three distinct uncached failing resolutions from an
empty cache each fetch once, so the clock advances by at least two
rate-limit intervals. -/
theorem claim_C6_witness :
    (∀ (f : Fetcher) (q cc : Str) (s : GeoState),
        s.now - s.lastReq < RATE_LIMIT_SEC →
        (fetch_nominatim f q cc s).2.now =
          s.now + (RATE_LIMIT_SEC - (s.now - s.lastReq))) ∧
    (∀ (f : Fetcher) (q cc : Str) (s : GeoState),
        s.lastReq + RATE_LIMIT_SEC ≤ (fetch_nominatim f q cc s).2.lastReq) ∧
    ({ fs := { legacy := none, cacheFile := .missing },
       now := 0, lastReq := 0, fetchLog := [] } : GeoState).now +
        2 * RATE_LIMIT_SEC ≤
      (geocode_address (fun _ _ => (none, none)) (some (str "Ccc"))
        (some (str "HR")) false false
        (geocode_address (fun _ _ => (none, none)) (some (str "Bbb"))
          (some (str "HR")) false false
          (geocode_address (fun _ _ => (none, none)) (some (str "Aaa"))
            (some (str "HR")) false false
            { fs := { legacy := none, cacheFile := .missing },
              now := 0, lastReq := 0, fetchLog := [] }).2).2).2.now :=
  claim_C6_rate_limit (fun _ _ => (none, none)) (fun _ _ => (none, none))
    (fun _ _ => (none, none)) (some (str "Aaa")) (some (str "Bbb"))
    (some (str "Ccc")) (some (str "HR")) (some (str "HR")) (some (str "HR"))
    false false false
    { fs := { legacy := none, cacheFile := .missing },
      now := 0, lastReq := 0, fetchLog := [] }
    (by decide) (by decide) (by decide)

/-- C7 counterexample: country code `"99"` has length 2 but is not
two *letters*, yet `build_query` accepts it — the guard checks only
the length of the code, never that its characters are alphabetic. -/
theorem claim_C7_counterexample :
    build_query (some (str "X")) (some (str "99")) = some (str "X, 99") ∧
    ¬ ((str "99").length = 2 ∧
        (str "99").all (fun ch => ch.isAlpha) = true) := by
  constructor
  · decide
  · decide

/-- C7 (amended): `build_query` returns `none` exactly when the
country code's length is not 2 (any two characters pass, letters or
not) or the address is empty after trimming; every successful result
is a non-empty canonical query. -/
theorem claim_C7_build_query_none_iff (a c : Option Str) :
    (build_query a c = none ↔
      ((c.getD []).length ≠ 2 ∨ pyStrip (a.getD []) = [])) ∧
    (∀ q, build_query a c = some q → q ≠ []) :=
  ⟨build_query_none_iff a c, fun q h => build_query_some_ne_nil a c q h⟩

/-- C7 witness: the characterization at a concrete blank address. -/
theorem claim_C7_witness :
    (build_query (some (str "  ")) (some (str "HR")) = none ↔
      (((some (str "HR")).getD ([] : Str)).length ≠ 2 ∨
        pyStrip ((some (str "  ")).getD ([] : Str)) = [])) ∧
    (∀ q, build_query (some (str "  ")) (some (str "HR")) = some q →
      q ≠ []) :=
  claim_C7_build_query_none_iff (some (str "  ")) (some (str "HR"))

/-- C8 counterexample: a truthy `Resolved` entry stored under the
stale key `"Velika dvorana, Croatia"` is *removed* by running a single
unrelated resolve operation — the load step purges it — refuting the
claim that existing `Resolved` entries are never removed. -/
theorem claim_C8_counterexample :
    fileLookup
      { fs := { legacy := none,
                cacheFile := .valid [(str "Velika dvorana, Croatia",
                  some (Entry.mk (some (.pstr (str "45.80")))
                    (some (.pstr (str "15.96")))))] },
        now := 0, lastReq := 0, fetchLog := [] }
      (str "Velika dvorana, Croatia") =
      some (some (Entry.mk (some (.pstr (str "45.80")))
        (some (.pstr (str "15.96"))))) ∧
    (Entry.mk (some (.pstr (str "45.80")))
      (some (.pstr (str "15.96")))).truthy = true ∧
    fileLookup
      (runOps
        { fs := { legacy := none,
                  cacheFile := .valid [(str "Velika dvorana, Croatia",
                    some (Entry.mk (some (.pstr (str "45.80")))
                      (some (.pstr (str "15.96")))))] },
          now := 0, lastReq := 0, fetchLog := [] }
        [.resolve (fun _ _ => (none, none)) (some (str "Aaa"))
          (some (str "HR")) true true])
      (str "Velika dvorana, Croatia") = none := by
  refine ⟨?_, ?_, ?_⟩
  · decide
  · decide
  · decide

/-- C8 (amended): across every sequence of resolve and venue-resolve
operations, a cache slot outside `KEYS_TO_PURGE_FROM_CACHE` whose
durable value changed was previously a weak slot — absent, `Negative`,
or a `Resolved`-shaped entry whose coordinates are not both truthy —
so a truthy `Resolved` entry outside the purge set is never
overwritten or removed, and every mutation is persisted because the
durable file itself is the compared store. -/
theorem claim_C8_append_only (ops : List Op) (s : GeoState) (k : Str)
    (hk : k ∉ KEYS_TO_PURGE_FROM_CACHE)
    (hch : fileLookup (runOps s ops) k ≠ fileLookup s k) :
    weakSlot (fileLookup s k) = true :=
  runOps_preserves ops s k hk hch

/-- C8 witness: a fresh resolve writes a previously absent slot. -/
theorem claim_C8_witness :
    weakSlot (fileLookup
      { fs := { legacy := none, cacheFile := .missing },
        now := 0, lastReq := 0, fetchLog := [] }
      (str "Aaa, Croatia")) = true :=
  claim_C8_append_only
    [.resolve (fun _ _ => (some (str "1"), some (str "2")))
      (some (str "Aaa")) (some (str "HR")) false false]
    { fs := { legacy := none, cacheFile := .missing },
      now := 0, lastReq := 0, fetchLog := [] }
    (str "Aaa, Croatia") (by decide) (by decide)

/-- C9: if the persisted cache file exists but is not valid JSON,
`_load_cache` returns the empty mapping and leaves the state exactly
as it was — no exception propagates, and the unreadable prior cache
state is silently discarded. -/
theorem claim_C9_corrupt_empty (s : GeoState)
    (h : s.fs.cacheFile = .corrupt) :
    load_cache s = ([], s) := by
  have hm : migrate_legacy_cache s.fs = s.fs :=
    migrate_not_missing (by intro hx; rw [h] at hx; cases hx)
  have h2 : (migrate_legacy_cache s.fs).cacheFile = .corrupt := by
    rw [hm, h]
  have hL : loadCacheFS s.fs = ([], s.fs) := by
    rw [loadCacheFS_eq_corrupt h2, hm]
  unfold load_cache
  rw [hL]

/-- C9 witness: loading a concrete corrupt file. -/
theorem claim_C9_witness :
    load_cache { fs := { legacy := none, cacheFile := .corrupt },
                 now := 0, lastReq := 0, fetchLog := [] } =
      (([] : Cache),
       { fs := { legacy := none, cacheFile := .corrupt },
         now := 0, lastReq := 0, fetchLog := [] }) :=
  claim_C9_corrupt_empty
    { fs := { legacy := none, cacheFile := .corrupt },
      now := 0, lastReq := 0, fetchLog := [] } rfl

/-- C10: when the cache holds a `Resolved` entry for the canonical
query whose stored lat or lng is falsy (numeric 0, empty string, or an
absent field), `geocode_address` returns no coordinate and its entire
effect is the load step: no external fetch and no fallback attempt
happen, because the `if lat and lng` truthiness test fails inside the
cache-hit branch. -/
theorem claim_C10_falsy_hit (f : Fetcher) (a c : Option Str) (sk fb : Bool)
    (s : GeoState) (q0 : Str) (e : Entry)
    (hb : build_query a c = some q0)
    (hget : cacheGet (load_cache s).1 (corrected q0) = some (some e))
    (he : e.truthy = false) :
    geocode_address f a c sk fb s = (none, (load_cache s).2) ∧
    (geocode_address f a c sk fb s).2.fetchLog = s.fetchLog := by
  have h1 := ga_eq_hit f a c sk fb s q0 e hb hget
  rw [h1, cacheHitResult_not_truthy he]
  exact ⟨rfl, load_cache_log s⟩

/-- C10 witness: a cached entry with numeric-zero latitude yields
`(none, none)` and no fetch even though a fetcher is available. -/
theorem claim_C10_witness :
    (geocode_address (fun _ _ => (some (str "9"), some (str "9")))
        (some (str "Aaa")) (some (str "HR")) false true
        { fs := { legacy := none,
                  cacheFile := .valid [(str "Aaa, Croatia",
                    some (Entry.mk (some (.pnum 0)) (some (.pnum 5))))] },
          now := 0, lastReq := 0, fetchLog := [] } =
      (none, (load_cache
        { fs := { legacy := none,
                  cacheFile := .valid [(str "Aaa, Croatia",
                    some (Entry.mk (some (.pnum 0)) (some (.pnum 5))))] },
          now := 0, lastReq := 0, fetchLog := [] }).2)) ∧
    (geocode_address (fun _ _ => (some (str "9"), some (str "9")))
        (some (str "Aaa")) (some (str "HR")) false true
        { fs := { legacy := none,
                  cacheFile := .valid [(str "Aaa, Croatia",
                    some (Entry.mk (some (.pnum 0)) (some (.pnum 5))))] },
          now := 0, lastReq := 0, fetchLog := [] }).2.fetchLog =
      ({ fs := { legacy := none,
                 cacheFile := .valid [(str "Aaa, Croatia",
                   some (Entry.mk (some (.pnum 0)) (some (.pnum 5))))] },
         now := 0, lastReq := 0, fetchLog := [] } : GeoState).fetchLog :=
  claim_C10_falsy_hit (fun _ _ => (some (str "9"), some (str "9")))
    (some (str "Aaa")) (some (str "HR")) false true
    { fs := { legacy := none,
              cacheFile := .valid [(str "Aaa, Croatia",
                some (Entry.mk (some (.pnum 0)) (some (.pnum 5))))] },
      now := 0, lastReq := 0, fetchLog := [] }
    (str "Aaa, Croatia") (Entry.mk (some (.pnum 0)) (some (.pnum 5)))
    (by decide) (by decide) (by decide)

end Geocode
